import Mathlib

/-!
# Batting-order simulator: the base-out state machine

A shallow embedding of the two simulators of the repository:

* `Simple`   : `src/lineup-simulation.cpp` (boolean base occupancy, every runner
  advances by the number of bases of the hit);
* `Detailed` : `src/Batting Order Simulator/lineup-simulation.cpp` (bases hold the
  runner, advancement on singles and doubles is drawn per runner).

Conventions of the embedding.

* A C++ function that mutates its by-reference arguments becomes a function that
  returns the new values of those arguments, in the order of the parameter list.
* `int` counters (`runs`, `outs`, base numbers, the lineup cursor) are mathematical
  integers: the source never relies on wrap-around.
* `double` probabilities and draws are exact rationals.
* `player*` (a pointer to an entry of the lineup, which is never written after
  initialisation) is `Option player`: `NULL` is `none`, a non-null pointer is the
  player it points to.
* The library call `randomReal(0, 1)` reads the next value of an explicit sequence
  of draws, `RandomSource`.
* The `while` loop of `simulateInning` is bounded by a fuel argument; running out of
  fuel and reading the lineup out of bounds are reported as faults.
-/

/-- The outcome of a plate appearance (the enumeration of `lineup-simulation-types.h`,
identical in both simulators, with the spelling of the source). -/
inductive plateAppearanceResult
  | OUT_IN_PLAY
  | STRIKOUT
  | WALK
  | SINGLE
  | DOUBLE
  | TRIPLE
  | HOME_RUN
  deriving DecidableEq, Repr

/-- Number of bases. -/
def kNumBases : Int := 3

/-- Number of innings of a game. -/
def kNumInningsPerGame : Nat := 9

/-- Number of players of a batting order. -/
def kNumPlayers : Int := 9

/-- Number of outs of a half-inning. -/
def kNumOutsPerInning : Int := 3

/-- The source of random numbers: `draw k` is the value returned by the `k`-th call
of `randomReal(0, 1)`, and `next` is the number of calls made so far. -/
structure RandomSource where
  draw : Nat → ℚ
  next : Nat

/-- The call `randomReal(0, 1)`: the current draw, and the source advanced by one. -/
def randomReal (g : RandomSource) : ℚ × RandomSource :=
  (g.draw g.next, { g with next := g.next + 1 })

/-- What stops a run of `simulateInning` or `simulateGame` short of a result. -/
inductive Fault
  | outOfFuel
  | badIndex
  deriving DecidableEq, Repr

/-! ## The simple model (`src/lineup-simulation.cpp`) -/

namespace Simple

/-- The outcome profile of a player. -/
structure player where
  outInPlayRate : ℚ
  kRate : ℚ
  bbRate : ℚ
  singleRate : ℚ
  doubleRate : ℚ
  tripleRate : ℚ
  homeRunRate : ℚ
  deriving DecidableEq

/-- The batting order: the array `players`. -/
structure battingOrder where
  players : Array player

/-- The read `lineup.players[i]`, defined inside the array only. -/
def battingOrder.read (lineup : battingOrder) (i : Int) : Option player :=
  if 0 ≤ i then lineup.players[i.toNat]? else none

/-- Occupancy of the three bases. -/
structure Bases where
  firstBase : Bool
  secondBase : Bool
  thirdBase : Bool
  deriving DecidableEq, Repr

/-- The body of `clearBases`: every base empty. -/
def clearBases (bases : Bases) : Bases :=
  { bases with firstBase := false, secondBase := false, thirdBase := false }

/-- The body of `moveBaserunner`: returns the new `bases` and `runs`. -/
def moveBaserunner (bases : Bases) (numBases : Int) (runs : Int) (initialBase : Int) :
    Bases × Int :=
  let finalBase := initialBase + numBases
  if finalBase ≥ 4 then (bases, runs + 1)
  else if finalBase = 3 then ({ bases with thirdBase := true }, runs)
  else if finalBase = 2 then ({ bases with secondBase := true }, runs)
  else ({ bases with firstBase := true }, runs)

/-- The body of `implementHit`: returns the new `bases` and `runs`. -/
def implementHit (numBases : Int) (bases : Bases) (runs : Int) : Bases × Int :=
  let (bases, runs) :=
    if bases.thirdBase then
      let (bases, runs) := moveBaserunner bases numBases runs 3
      ({ bases with thirdBase := false }, runs)
    else (bases, runs)
  let (bases, runs) :=
    if bases.secondBase then
      let (bases, runs) := moveBaserunner bases numBases runs 2
      ({ bases with secondBase := false }, runs)
    else (bases, runs)
  let (bases, runs) :=
    if bases.firstBase then
      let (bases, runs) := moveBaserunner bases numBases runs 1
      ({ bases with firstBase := false }, runs)
    else (bases, runs)
  moveBaserunner bases numBases runs 0

/-- The body of `implementWalk`: returns the new `bases` and `runs`. -/
def implementWalk (bases : Bases) (runs : Int) : Bases × Int :=
  if !bases.firstBase then ({ bases with firstBase := true }, runs)
  else if !bases.secondBase then ({ bases with secondBase := true }, runs)
  else if !bases.thirdBase then ({ bases with thirdBase := true }, runs)
  else (bases, runs + 1)

/-- The body of `getNumBases`. -/
def getNumBases (result : plateAppearanceResult) : Int :=
  if result = .SINGLE then 1
  else if result = .DOUBLE then 2
  else if result = .TRIPLE then 3
  else if result = .HOME_RUN then 4
  else 0

/-- The body of `updateStatus`: returns the new `bases`, `runs` and `outs`. -/
def updateStatus (result : plateAppearanceResult) (bases : Bases) (runs : Int) (outs : Int) :
    Bases × Int × Int :=
  if result = .OUT_IN_PLAY ∨ result = .STRIKOUT then (bases, runs, outs + 1)
  else if result = .WALK then
    let (bases, runs) := implementWalk bases runs
    (bases, runs, outs)
  else
    let (bases, runs) := implementHit (getNumBases result) bases runs
    (bases, runs, outs)

/-- The body of `determinePlateAppearanceResult`: the outcome, and the random source
after the one draw. -/
def determinePlateAppearanceResult (p : player) (g : RandomSource) :
    plateAppearanceResult × RandomSource :=
  let (rand, g) := randomReal g
  if rand < p.outInPlayRate then (.OUT_IN_PLAY, g) else
  let rand := rand - p.outInPlayRate
  if rand < p.kRate then (.STRIKOUT, g) else
  let rand := rand - p.kRate
  if rand < p.bbRate then (.WALK, g) else
  let rand := rand - p.bbRate
  if rand < p.singleRate then (.SINGLE, g) else
  let rand := rand - p.singleRate
  if rand < p.doubleRate then (.DOUBLE, g) else
  let rand := rand - p.doubleRate
  if rand < p.tripleRate then (.TRIPLE, g) else
  let rand := rand - p.tripleRate
  if rand < p.homeRunRate then (.HOME_RUN, g) else
  (.OUT_IN_PLAY, g)

/-- The variables of `simulateInning`: its locals `bases` and `outs`, its by-reference
arguments `runs` and `battingPosition`, and the random source. -/
structure InningState where
  bases : Bases
  outs : Int
  runs : Int
  battingPosition : Int
  g : RandomSource

/-- One plate appearance: the first three statements of the loop body of
`simulateInning` (sample the outcome, update the status, advance the cursor). -/
def plateAppearance (lineup : battingOrder) (s : InningState) : Except Fault InningState :=
  match lineup.read s.battingPosition with
  | none => .error .badIndex
  | some hitter =>
    let (result, g) := determinePlateAppearanceResult hitter s.g
    let (bases, runs, outs) := updateStatus result s.bases s.runs s.outs
    .ok { bases := bases, outs := outs, runs := runs,
          battingPosition := Int.tmod (s.battingPosition + 1) kNumPlayers, g := g }

/-- The `while` loop of `simulateInning`, with at most `fuel` iterations: the state at
the point where the function returns. -/
def simulateInningLoop (lineup : battingOrder) : Nat → InningState → Except Fault InningState
  | 0, s => if s.outs < kNumOutsPerInning then .error .outOfFuel else .ok s
  | fuel + 1, s =>
    if s.outs < kNumOutsPerInning then
      match plateAppearance lineup s with
      | .error e => .error e
      | .ok s =>
        if s.outs = 3 then .ok { s with bases := clearBases s.bases }
        else simulateInningLoop lineup fuel s
    else .ok s

/-- The state in which `simulateInning` enters its loop: bases cleared, no outs. -/
def inningStart (runs : Int) (battingPosition : Int) (g : RandomSource) : InningState :=
  { bases := clearBases ⟨false, false, false⟩, outs := 0, runs := runs,
    battingPosition := battingPosition, g := g }

/-- The body of `simulateInning`: returns the new `runs` and `battingPosition`, and
the random source. -/
def simulateInning (fuel : Nat) (lineup : battingOrder) (runs : Int) (battingPosition : Int)
    (g : RandomSource) : Except Fault (Int × Int × RandomSource) :=
  match simulateInningLoop lineup fuel (inningStart runs battingPosition g) with
  | .error e => .error e
  | .ok s => .ok (s.runs, s.battingPosition, s.g)

/-- The `for` loop of `simulateGame`, with `innings` iterations left. -/
def simulateGameLoop (fuel : Nat) (lineup : battingOrder) :
    Nat → Int → Int → RandomSource → Except Fault (Int × Int × RandomSource)
  | 0, runs, battingPosition, g => .ok (runs, battingPosition, g)
  | innings + 1, runs, battingPosition, g =>
    match simulateInning fuel lineup runs battingPosition g with
    | .error e => .error e
    | .ok (runs, battingPosition, g) => simulateGameLoop fuel lineup innings runs battingPosition g

/-- The body of `simulateGame`: the runs of one game (each inning is given `fuel`
plate appearances), and the random source afterwards. -/
def simulateGame (fuel : Nat) (lineup : battingOrder) (g : RandomSource) : Except Fault (Int × RandomSource) :=
  match simulateGameLoop fuel lineup kNumInningsPerGame 0 0 g with
  | .error e => .error e
  | .ok (runs, _, g) => .ok (runs, g)

/-- The player written to every slot by `initializeBattingOrder`. -/
def nextPlayer : player :=
  { outInPlayRate := 0.506757, kRate := 0.169351, bbRate := 0.087831, singleRate := 0.158561,
    doubleRate := 0.046271, tripleRate := 0.004316, homeRunRate := 0.026912 }

/-- The body of `initializeBattingOrder`: nine copies of `nextPlayer`. -/
def initializeBattingOrder : battingOrder :=
  { players := Array.mkArray 9 nextPlayer }

end Simple

/-! ## The detailed model (`src/Batting Order Simulator/lineup-simulation.cpp`) -/

namespace Detailed

/-- The outcome profile and the baserunning profile of a player. Any remaining
probability in plate appearance results is for out in play; any remaining probability
in baserunning results is for out on bases. -/
structure player where
  kRate : ℚ
  bbRate : ℚ
  singleRate : ℚ
  doubleRate : ℚ
  tripleRate : ℚ
  homeRunRate : ℚ
  br1s2Rate : ℚ
  br1s3Rate : ℚ
  br1d3Rate : ℚ
  br1dHRate : ℚ
  br2s3Rate : ℚ
  br2sHRate : ℚ
  deriving DecidableEq

/-- The batting order: the array `players`. -/
structure battingOrder where
  players : Array player

/-- The read `lineup.players[i]`, defined inside the array only. -/
def battingOrder.read (lineup : battingOrder) (i : Int) : Option player :=
  if 0 ≤ i then lineup.players[i.toNat]? else none

/-- The runner on each of the three bases, if any. -/
structure Bases where
  firstBase : Option player
  secondBase : Option player
  thirdBase : Option player
  deriving DecidableEq

/-- The body of `clearBases`: every base empty. -/
def clearBases (bases : Bases) : Bases :=
  { bases with firstBase := none, secondBase := none, thirdBase := none }

/-- The body of `countBaserunners`. -/
def countBaserunners (bases : Bases) : Int :=
  let numBaserunners := 0
  let numBaserunners := if bases.firstBase.isSome then numBaserunners + 1 else numBaserunners
  let numBaserunners := if bases.secondBase.isSome then numBaserunners + 1 else numBaserunners
  let numBaserunners := if bases.thirdBase.isSome then numBaserunners + 1 else numBaserunners
  numBaserunners

/-- The body of `simulateBaserunning`: returns the new `bases`, `runs` and `outs`, and
the random source after the one draw. -/
def simulateBaserunning (bases : Bases) (initBase : Int) (runs : Int) (outs : Int)
    (rate1 : ℚ) (base1 : Int) (rate2 : ℚ) (base2 : Int) (g : RandomSource) :
    Bases × Int × Int × RandomSource :=
  -- determine destination (`none`: an out on the basepaths)
  let (rand, g) := randomReal g
  let finalBase : Option Int :=
    if rand < rate1 then some base1
    else
      let rand := rand - rate1
      if rand < rate2 then some base2
      else none
  match finalBase with
  | none => (bases, runs, outs + 1, g)
  | some finalBase =>
    -- going home
    if finalBase = 4 then
      let runs := runs + 1
      let bases := if initBase = 3 then { bases with thirdBase := none } else bases
      let bases := if initBase = 2 then { bases with secondBase := none } else bases
      let bases := if initBase = 1 then { bases with firstBase := none } else bases
      (bases, runs, outs, g)
    -- going to second, or blocked from going to third resulting in second
    else if finalBase = 2 ∨ (finalBase = 3 ∧ bases.thirdBase.isSome) then
      ({ bases with secondBase := bases.firstBase, firstBase := none }, runs, outs, g)
    -- final base is an unblocked third
    else if initBase = 1 then
      ({ bases with thirdBase := bases.firstBase, firstBase := none }, runs, outs, g)
    else
      ({ bases with thirdBase := bases.secondBase, secondBase := none }, runs, outs, g)

/-- The body of `implementDouble`. -/
def implementDouble (bases : Bases) (runs : Int) (outs : Int) (hitter : player)
    (g : RandomSource) : Bases × Int × Int × RandomSource :=
  let (bases, runs) :=
    if bases.thirdBase.isSome then ({ bases with thirdBase := none }, runs + 1) else (bases, runs)
  let (bases, runs) :=
    if bases.secondBase.isSome then ({ bases with secondBase := none }, runs + 1)
    else (bases, runs)
  let (bases, runs, outs, g) :=
    match bases.firstBase with
    | some runner =>
      simulateBaserunning bases 1 runs outs runner.br1d3Rate 3 runner.br1dHRate 4 g
    | none => (bases, runs, outs, g)
  ({ bases with secondBase := some hitter }, runs, outs, g)

/-- The body of `implementSingle`. -/
def implementSingle (bases : Bases) (runs : Int) (outs : Int) (hitter : player)
    (g : RandomSource) : Bases × Int × Int × RandomSource :=
  let (bases, runs) :=
    if bases.thirdBase.isSome then ({ bases with thirdBase := none }, runs + 1) else (bases, runs)
  let (bases, runs, outs, g) :=
    match bases.secondBase with
    | some runner =>
      simulateBaserunning bases 2 runs outs runner.br2s3Rate 3 runner.br2sHRate 4 g
    | none => (bases, runs, outs, g)
  let (bases, runs, outs, g) :=
    match bases.firstBase with
    | some runner =>
      simulateBaserunning bases 1 runs outs runner.br1s2Rate 2 runner.br1s3Rate 3 g
    | none => (bases, runs, outs, g)
  ({ bases with firstBase := some hitter }, runs, outs, g)

/-- The body of `implementHit`. -/
def implementHit (result : plateAppearanceResult) (bases : Bases) (runs : Int) (outs : Int)
    (hitter : player) (g : RandomSource) : Bases × Int × Int × RandomSource :=
  let (bases, runs) :=
    if result = .HOME_RUN then (clearBases bases, runs + (countBaserunners bases + 1))
    else (bases, runs)
  let (bases, runs) :=
    if result = .TRIPLE then
      ({ clearBases bases with thirdBase := some hitter }, runs + countBaserunners bases)
    else (bases, runs)
  let (bases, runs, outs, g) :=
    if result = .DOUBLE then implementDouble bases runs outs hitter g
    else (bases, runs, outs, g)
  let (bases, runs, outs, g) :=
    if result = .SINGLE then implementSingle bases runs outs hitter g
    else (bases, runs, outs, g)
  (bases, runs, outs, g)

/-- The body of `implementWalk`: returns the new `bases` and `runs`. -/
def implementWalk (bases : Bases) (runs : Int) (hitter : player) : Bases × Int :=
  let (bases, runs) :=
    if bases.firstBase.isSome then
      let (bases, runs) :=
        if bases.secondBase.isSome then
          let runs := if bases.thirdBase.isSome then runs + 1 else runs
          ({ bases with thirdBase := bases.secondBase }, runs)
        else (bases, runs)
      ({ bases with secondBase := bases.firstBase }, runs)
    else (bases, runs)
  ({ bases with firstBase := some hitter }, runs)

/-- The body of `updateStatus`: returns the new `bases`, `runs` and `outs`, and the
random source after the draws of the baserunning. -/
def updateStatus (result : plateAppearanceResult) (bases : Bases) (runs : Int) (outs : Int)
    (hitter : player) (g : RandomSource) : Bases × Int × Int × RandomSource :=
  if result = .OUT_IN_PLAY ∨ result = .STRIKOUT then (bases, runs, outs + 1, g)
  else if result = .WALK then
    let (bases, runs) := implementWalk bases runs hitter
    (bases, runs, outs, g)
  else implementHit result bases runs outs hitter g

/-- The body of `determinePlateAppearanceResult`: the outcome, and the random source
after the one draw. -/
def determinePlateAppearanceResult (p : player) (g : RandomSource) :
    plateAppearanceResult × RandomSource :=
  let (rand, g) := randomReal g
  if rand < p.kRate then (.STRIKOUT, g) else
  let rand := rand - p.kRate
  if rand < p.bbRate then (.WALK, g) else
  let rand := rand - p.bbRate
  if rand < p.singleRate then (.SINGLE, g) else
  let rand := rand - p.singleRate
  if rand < p.doubleRate then (.DOUBLE, g) else
  let rand := rand - p.doubleRate
  if rand < p.tripleRate then (.TRIPLE, g) else
  let rand := rand - p.tripleRate
  if rand < p.homeRunRate then (.HOME_RUN, g) else
  (.OUT_IN_PLAY, g)

/-- The variables of `simulateInning`: its locals `bases` and `outs`, its by-reference
arguments `runs` and `battingPosition`, and the random source. -/
structure InningState where
  bases : Bases
  outs : Int
  runs : Int
  battingPosition : Int
  g : RandomSource

/-- One plate appearance: the first three statements of the loop body of
`simulateInning` (sample the outcome, update the status, advance the cursor). -/
def plateAppearance (lineup : battingOrder) (s : InningState) : Except Fault InningState :=
  match lineup.read s.battingPosition with
  | none => .error .badIndex
  | some hitter =>
    let (result, g) := determinePlateAppearanceResult hitter s.g
    let (bases, runs, outs, g) := updateStatus result s.bases s.runs s.outs hitter g
    .ok { bases := bases, outs := outs, runs := runs,
          battingPosition := Int.tmod (s.battingPosition + 1) kNumPlayers, g := g }

/-- The `while` loop of `simulateInning`, with at most `fuel` iterations: the state at
the point where the function returns. -/
def simulateInningLoop (lineup : battingOrder) : Nat → InningState → Except Fault InningState
  | 0, s => if s.outs < kNumOutsPerInning then .error .outOfFuel else .ok s
  | fuel + 1, s =>
    if s.outs < kNumOutsPerInning then
      match plateAppearance lineup s with
      | .error e => .error e
      | .ok s =>
        if s.outs = 3 then .ok { s with bases := clearBases s.bases }
        else simulateInningLoop lineup fuel s
    else .ok s

/-- The state in which `simulateInning` enters its loop: bases cleared, no outs. -/
def inningStart (runs : Int) (battingPosition : Int) (g : RandomSource) : InningState :=
  { bases := clearBases ⟨none, none, none⟩, outs := 0, runs := runs,
    battingPosition := battingPosition, g := g }

/-- The body of `simulateInning`: returns the new `runs` and `battingPosition`, and
the random source. -/
def simulateInning (fuel : Nat) (lineup : battingOrder) (runs : Int) (battingPosition : Int)
    (g : RandomSource) : Except Fault (Int × Int × RandomSource) :=
  match simulateInningLoop lineup fuel (inningStart runs battingPosition g) with
  | .error e => .error e
  | .ok s => .ok (s.runs, s.battingPosition, s.g)

/-- The `for` loop of `simulateGame`, with `innings` iterations left. -/
def simulateGameLoop (fuel : Nat) (lineup : battingOrder) :
    Nat → Int → Int → RandomSource → Except Fault (Int × Int × RandomSource)
  | 0, runs, battingPosition, g => .ok (runs, battingPosition, g)
  | innings + 1, runs, battingPosition, g =>
    match simulateInning fuel lineup runs battingPosition g with
    | .error e => .error e
    | .ok (runs, battingPosition, g) => simulateGameLoop fuel lineup innings runs battingPosition g

/-- The body of `simulateGame`: the runs of one game (each inning is given `fuel`
plate appearances), and the random source afterwards. -/
def simulateGame (fuel : Nat) (lineup : battingOrder) (g : RandomSource) :
    Except Fault (Int × RandomSource) :=
  match simulateGameLoop fuel lineup kNumInningsPerGame 0 0 g with
  | .error e => .error e
  | .ok (runs, _, g) => .ok (runs, g)

/-- The player written to every slot by `initializeBattingOrder`. -/
def nextPlayer : player :=
  { kRate := 0.169351, bbRate := 0.087831, singleRate := 0.158561, doubleRate := 0.046271,
    tripleRate := 0.004316, homeRunRate := 0.026912,
    br1s2Rate := 0.7060, br1s3Rate := 0.2801, br1d3Rate := 0.5549, br1dHRate := 0.4145,
    br2s3Rate := 0.3664, br2sHRate := 0.5922 }

/-- The body of `initializeBattingOrder`: nine copies of `nextPlayer`. -/
def initializeBattingOrder : battingOrder :=
  { players := Array.mkArray 9 nextPlayer }

end Detailed

/-! ## Vocabulary of the statements

The notions below are not functions of the source: they are the words in which the
properties of the state machine are stated. -/

/-- Number of occupied bases of a base state of the simple model. -/
def Simple.numOccupied (bases : Simple.Bases) : Int :=
  (if bases.firstBase then 1 else 0) + (if bases.secondBase then 1 else 0)
    + (if bases.thirdBase then 1 else 0)

/-- Whether base number `b` (1, 2 or 3) is occupied; no other number names a base. -/
def Simple.occupiedAt (bases : Simple.Bases) (b : Int) : Bool :=
  if b = 1 then bases.firstBase
  else if b = 2 then bases.secondBase
  else if b = 3 then bases.thirdBase
  else false

/-- Number of runners of a base state whose base number plus `n` is at least 4. -/
def Simple.numScoring (bases : Simple.Bases) (n : Int) : Int :=
  ((([1, 2, 3] : List Int).filter (fun b => Simple.occupiedAt bases b && decide (b + n ≥ 4))).length : Int)

/-- The occupancy pattern of a base state of the detailed model: which bases hold a
runner, whoever it is. -/
def Detailed.occupancy (bases : Detailed.Bases) : Simple.Bases :=
  { firstBase := bases.firstBase.isSome, secondBase := bases.secondBase.isSome,
    thirdBase := bases.thirdBase.isSome }

/-- The runners on the bases, listed from first base to third base. -/
def Detailed.runners (bases : Detailed.Bases) : List Detailed.player :=
  bases.firstBase.toList ++ bases.secondBase.toList ++ bases.thirdBase.toList

/-- Whether a draw `rand` falls in the out-on-bases mass of a resolution with rates
`rate1` and `rate2`: it matches neither the first outcome nor, after subtraction of
`rate1`, the second. -/
def Detailed.thrownOut (rate1 rate2 rand : ℚ) : Bool :=
  !decide (rand < rate1) && !decide (rand - rate1 < rate2)

/-- Number of runners thrown out on the bases during a play. On a DOUBLE the runner of
first is resolved with the next draw. On a SINGLE the runner of second is resolved with
the next draw and the runner of first with the draw after the draws already used. No
runner is resolved on another outcome. -/
def Detailed.outsOnBases (result : plateAppearanceResult) (bases : Detailed.Bases)
    (g : RandomSource) : Int :=
  match result with
  | .DOUBLE =>
    match bases.firstBase with
    | some A => if Detailed.thrownOut A.br1d3Rate A.br1dHRate (g.draw g.next) then 1 else 0
    | none => 0
  | .SINGLE =>
    (match bases.secondBase with
      | some B => if Detailed.thrownOut B.br2s3Rate B.br2sHRate (g.draw g.next) then 1 else 0
      | none => 0)
    + (match bases.firstBase with
      | some A =>
        if Detailed.thrownOut A.br1s2Rate A.br1s3Rate
            (g.draw (if bases.secondBase.isSome then g.next + 1 else g.next)) then 1 else 0
      | none => 0)
  | _ => 0

/-- A runner with the profile of `initializeBattingOrder`, told apart from the batter
by the strikeout rate (which no baserunning reads). -/
def Detailed.runnerA : Detailed.player :=
  { Detailed.nextPlayer with kRate := 1 / 4 }

/-- A second such runner. -/
def Detailed.runnerB : Detailed.player :=
  { Detailed.nextPlayer with kRate := 1 / 5 }

/-- A random source whose every draw is 0.999: above the sum of the two rates of each
baserunning resolution of `Detailed.nextPlayer`. -/
def drawsHigh : RandomSource :=
  ⟨fun _ => 999 / 1000, 0⟩

/-- A random source for one half-inning: two strikeouts (draws 0), two walks (draws
0.2), a single (draw 0.3), and then draws of 0.999 for the baserunning. -/
def drawsFourOuts : RandomSource :=
  ⟨fun k => if k < 2 then 0 else if k < 4 then 1 / 5 else if k = 4 then 3 / 10 else 999 / 1000, 0⟩

/-- The state after `n` plate appearances of the simple model, one after the other,
whatever the out counter: the loop of `simulateInning` without its exit tests. -/
def Simple.plateAppearances (lineup : Simple.battingOrder) :
    Nat → Simple.InningState → Except Fault Simple.InningState
  | 0, s => .ok s
  | n + 1, s =>
    match Simple.plateAppearance lineup s with
    | .error e => .error e
    | .ok s => Simple.plateAppearances lineup n s

/-- The state after `n` plate appearances of the detailed model, one after the other,
whatever the out counter: the loop of `simulateInning` without its exit tests. -/
def Detailed.plateAppearances (lineup : Detailed.battingOrder) :
    Nat → Detailed.InningState → Except Fault Detailed.InningState
  | 0, s => .ok s
  | n + 1, s =>
    match Detailed.plateAppearance lineup s with
    | .error e => .error e
    | .ok s => Detailed.plateAppearances lineup n s

/-- Weighted choice by cumulative threshold, as the specification words it: over an
ordered list of (outcome, probability) pairs, the outcome of the first pair whose
cumulative threshold (the sum `c` of the probabilities before it, plus its own) exceeds
the draw `r`, and the remainder bucket `fallback` when no pair does. -/
def weightedChoice (fallback : plateAppearanceResult) (r : ℚ) :
    ℚ → List (plateAppearanceResult × ℚ) → plateAppearanceResult
  | _, [] => fallback
  | c, (outcome, w) :: rest =>
    if r < c + w then outcome else weightedChoice fallback r (c + w) rest

/-- The ordered (outcome, probability) pairs of a player of the detailed model: k, bb,
1b, 2b, 3b, hr. -/
def Detailed.outcomeTable (p : Detailed.player) : List (plateAppearanceResult × ℚ) :=
  [(.STRIKOUT, p.kRate), (.WALK, p.bbRate), (.SINGLE, p.singleRate), (.DOUBLE, p.doubleRate),
    (.TRIPLE, p.tripleRate), (.HOME_RUN, p.homeRunRate)]

/-- The ordered (outcome, probability) pairs that the sampler of the simple model
tests: the out-in-play rate first, then k, bb, 1b, 2b, 3b, hr. -/
def Simple.outcomeTable (p : Simple.player) : List (plateAppearanceResult × ℚ) :=
  [(.OUT_IN_PLAY, p.outInPlayRate), (.STRIKOUT, p.kRate), (.WALK, p.bbRate),
    (.SINGLE, p.singleRate), (.DOUBLE, p.doubleRate), (.TRIPLE, p.tripleRate),
    (.HOME_RUN, p.homeRunRate)]

/-- A random source whose every draw is `r`. -/
def drawsConst (r : ℚ) : RandomSource :=
  ⟨fun _ => r, 0⟩

/-- A lineup of the simple model whose nine players always strike out. -/
def Simple.strikeoutLineup : Simple.battingOrder :=
  { players := Array.mkArray 9
      { outInPlayRate := 0, kRate := 1, bbRate := 0, singleRate := 0, doubleRate := 0,
        tripleRate := 0, homeRunRate := 0 } }

/-- A lineup of the detailed model whose nine players always strike out. -/
def Detailed.strikeoutLineup : Detailed.battingOrder :=
  { players := Array.mkArray 9
      { Detailed.nextPlayer with
        kRate := 1, bbRate := 0, singleRate := 0, doubleRate := 0, tripleRate := 0,
        homeRunRate := 0 } }

/-- A lineup of the detailed model whose nine players always hit a home run. -/
def Detailed.homeRunLineup : Detailed.battingOrder :=
  { players := Array.mkArray 9
      { Detailed.nextPlayer with
        kRate := 0, bbRate := 0, singleRate := 0, doubleRate := 0, tripleRate := 0,
        homeRunRate := 1 } }

/-- A random source whose first draw is 0.3 and whose later draws are 0.8: on a single
of runners with the profile of `Detailed.nextPlayer`, the runner of second takes third
(0.3 < 0.3664) and the runner of first selects third (0.7060 ≤ 0.8 < 0.7060 + 0.2801). -/
def drawsBothToThird : RandomSource :=
  ⟨fun k => if k = 0 then 3 / 10 else 4 / 5, 0⟩

/-- The "always take the nearer base" policy on one play: every draw that the play
makes for a runner is below that runner's rate for the nearer candidate base. On a
DOUBLE the runner of first is resolved with the next draw (nearer base: third). On a
SINGLE the runner of second is resolved with the next draw (nearer base: third) and the
runner of first with the draw after the draws already used (nearer base: second). No
other outcome resolves a runner. -/
def Detailed.nearerBaseDraws (result : plateAppearanceResult) (bases : Detailed.Bases)
    (g : RandomSource) : Prop :=
  match result with
  | .DOUBLE => ∀ A, bases.firstBase = some A → g.draw g.next < A.br1d3Rate
  | .SINGLE =>
    (∀ B, bases.secondBase = some B → g.draw g.next < B.br2s3Rate) ∧
    (∀ A, bases.firstBase = some A →
      g.draw (g.next + if bases.secondBase.isSome then 1 else 0) < A.br1s2Rate)
  | _ => True

/-! ## The plate-appearance transitions -/

/-- C1: in both models, `updateStatus` applied to OUT_IN_PLAY or to STRIKOUT increases
`outs` by exactly 1 and leaves the three bases and `runs` unchanged (in the detailed
model no draw is consumed either). -/
theorem updateStatus_out_adds_one_out (sb : Simple.Bases) (db : Detailed.Bases)
    (runs outs : Int) (hitter : Detailed.player) (g : RandomSource) :
    Simple.updateStatus .OUT_IN_PLAY sb runs outs = (sb, runs, outs + 1) ∧
    Simple.updateStatus .STRIKOUT sb runs outs = (sb, runs, outs + 1) ∧
    Detailed.updateStatus .OUT_IN_PLAY db runs outs hitter g = (db, runs, outs + 1, g) ∧
    Detailed.updateStatus .STRIKOUT db runs outs hitter g = (db, runs, outs + 1, g) :=
  ⟨rfl, rfl, rfl, rfl⟩

/-- C2: in both models, `updateStatus` applied to HOME_RUN increases `runs` by the
number of occupied bases plus 1, leaves the three bases empty and leaves `outs`
unchanged; with the bases loaded it adds exactly 4 runs. -/
theorem updateStatus_home_run (sb : Simple.Bases) (db : Detailed.Bases)
    (A B C : Detailed.player) (runs outs : Int) (hitter : Detailed.player) (g : RandomSource) :
    Simple.updateStatus .HOME_RUN sb runs outs
        = (⟨false, false, false⟩, runs + (Simple.numOccupied sb + 1), outs) ∧
    Simple.updateStatus .HOME_RUN ⟨true, true, true⟩ runs outs
        = (⟨false, false, false⟩, runs + 4, outs) ∧
    Detailed.updateStatus .HOME_RUN db runs outs hitter g
        = (⟨none, none, none⟩, runs + (Simple.numOccupied (Detailed.occupancy db) + 1), outs, g) ∧
    Detailed.updateStatus .HOME_RUN ⟨some A, some B, some C⟩ runs outs hitter g
        = (⟨none, none, none⟩, runs + 4, outs, g) := by
  refine ⟨?_, ?_, ?_, ?_⟩
  · rcases sb with ⟨_ | _, _ | _, _ | _⟩ <;>
      simp [Simple.updateStatus, Simple.implementHit, Simple.moveBaserunner, Simple.getNumBases,
        Simple.numOccupied] <;> ring
  · simp [Simple.updateStatus, Simple.implementHit, Simple.moveBaserunner, Simple.getNumBases]
    ring
  · rcases db with ⟨_ | _, _ | _, _ | _⟩ <;>
      simp [Detailed.updateStatus, Detailed.implementHit, Detailed.countBaserunners,
        Detailed.clearBases, Simple.numOccupied, Detailed.occupancy]
  · simp [Detailed.updateStatus, Detailed.implementHit, Detailed.countBaserunners,
      Detailed.clearBases]

/-- C3: in both models, `updateStatus` applied to TRIPLE increases `runs` by exactly the
number of bases occupied before the play, leaves first and second empty and third
occupied (in the detailed model: by the batter), and leaves `outs` unchanged. -/
theorem updateStatus_triple (sb : Simple.Bases) (db : Detailed.Bases)
    (runs outs : Int) (hitter : Detailed.player) (g : RandomSource) :
    Simple.updateStatus .TRIPLE sb runs outs
        = (⟨false, false, true⟩, runs + Simple.numOccupied sb, outs) ∧
    Detailed.updateStatus .TRIPLE db runs outs hitter g
        = (⟨none, none, some hitter⟩, runs + Simple.numOccupied (Detailed.occupancy db), outs, g) := by
  refine ⟨?_, ?_⟩
  · rcases sb with ⟨_ | _, _ | _, _ | _⟩ <;>
      simp [Simple.updateStatus, Simple.implementHit, Simple.moveBaserunner, Simple.getNumBases,
        Simple.numOccupied] <;> ring
  · rcases db with ⟨_ | _, _ | _, _ | _⟩ <;>
      simp [Detailed.updateStatus, Detailed.implementHit, Detailed.countBaserunners,
        Detailed.clearBases, Simple.numOccupied, Detailed.occupancy]

/-- C4: in the simple model `implementWalk` marks as occupied exactly the first
unoccupied base in the order first, second, third and changes nothing else; with the
three bases occupied it adds exactly 1 run and leaves them occupied; in every case
first base is occupied afterwards. -/
theorem simple_implementWalk_first_empty_slot (bases : Simple.Bases) (s t : Bool) (runs : Int) :
    Simple.implementWalk ⟨false, s, t⟩ runs = (⟨true, s, t⟩, runs) ∧
    Simple.implementWalk ⟨true, false, t⟩ runs = (⟨true, true, t⟩, runs) ∧
    Simple.implementWalk ⟨true, true, false⟩ runs = (⟨true, true, true⟩, runs) ∧
    Simple.implementWalk ⟨true, true, true⟩ runs = (⟨true, true, true⟩, runs + 1) ∧
    (Simple.implementWalk bases runs).1.firstBase = true := by
  refine ⟨rfl, rfl, rfl, rfl, ?_⟩
  rcases bases with ⟨_ | _, _ | _, _ | _⟩ <;> rfl

/-- C5: in the detailed model `implementWalk` puts the batter on first, the former
runner of first on second if first was occupied (second is unchanged otherwise), the
former runner of second on third if first and second were both occupied (third is
unchanged otherwise), and adds 1 run exactly when the three bases were occupied. The
runners afterwards, from first to third, are the batter followed by the former
runners, cut to three: only the runner forced home leaves the bases. -/
theorem detailed_implementWalk_forced_chain (bases : Detailed.Bases) (runs : Int)
    (hitter : Detailed.player) :
    Detailed.implementWalk bases runs hitter
      = ({ firstBase := some hitter,
           secondBase := if bases.firstBase.isSome then bases.firstBase else bases.secondBase,
           thirdBase := if bases.firstBase.isSome ∧ bases.secondBase.isSome
                        then bases.secondBase else bases.thirdBase },
         if bases.firstBase.isSome ∧ bases.secondBase.isSome ∧ bases.thirdBase.isSome
         then runs + 1 else runs) ∧
    Detailed.runners (Detailed.implementWalk bases runs hitter).1
      = (hitter :: Detailed.runners bases).take 3 := by
  rcases bases with ⟨_ | _, _ | _, _ | _⟩ <;>
    simp [Detailed.implementWalk, Detailed.runners]

/-- C6: the two walk implementations agree on occupancy and on runs: the occupancy
after the forced-chain walk of the detailed model is what the first-empty-slot walk of
the simple model makes of the occupancy before, with the same `runs`; with the bases
loaded both add exactly 1 run. -/
theorem implementWalk_models_agree (bases : Detailed.Bases) (runs : Int)
    (hitter A B C : Detailed.player) :
    (Detailed.occupancy (Detailed.implementWalk bases runs hitter).1,
        (Detailed.implementWalk bases runs hitter).2)
      = Simple.implementWalk (Detailed.occupancy bases) runs ∧
    (Detailed.implementWalk ⟨some A, some B, some C⟩ runs hitter).2 = runs + 1 ∧
    (Simple.implementWalk ⟨true, true, true⟩ runs).2 = runs + 1 := by
  refine ⟨?_, rfl, rfl⟩
  rcases bases with ⟨_ | _, _ | _, _ | _⟩ <;> rfl

/-- C7: in the simple model a single (`n = 1`) or a double (`n = 2`) advances every
runner and the batter, who starts at base 0, by exactly `n` bases: afterwards base `b`
is occupied if and only if `b = n` or base `b - n` is a base that was occupied; `runs`
increases by the number of former runners whose base number plus `n` is at least 4;
`updateStatus` leaves `outs` unchanged. -/
theorem simple_implementHit_advances (n : Int) (hn : n = 1 ∨ n = 2) (bases : Simple.Bases)
    (runs outs : Int) :
    (∀ b : Int, 1 ≤ b → b ≤ 3 →
      (Simple.occupiedAt (Simple.implementHit n bases runs).1 b = true ↔
        (b = n ∨ (1 ≤ b - n ∧ b - n ≤ 3 ∧ Simple.occupiedAt bases (b - n) = true)))) ∧
    (Simple.implementHit n bases runs).2 = runs + Simple.numScoring bases n ∧
    (∀ result, Simple.getNumBases result = n →
      Simple.updateStatus result bases runs outs
        = ((Simple.implementHit n bases runs).1, (Simple.implementHit n bases runs).2, outs)) := by
  refine ⟨?_, ?_, ?_⟩
  · intro b hb1 hb3
    interval_cases b <;> rcases hn with rfl | rfl <;>
      rcases bases with ⟨_ | _, _ | _, _ | _⟩ <;>
      simp [Simple.implementHit, Simple.moveBaserunner, Simple.occupiedAt]
  · rcases hn with rfl | rfl <;> rcases bases with ⟨_ | _, _ | _, _ | _⟩ <;>
      simp [Simple.implementHit, Simple.moveBaserunner, Simple.occupiedAt, Simple.numScoring] <;>
      ring
  · intro result hres
    subst hres
    cases result <;> simp [Simple.getNumBases] at hn <;>
      simp [Simple.updateStatus, Simple.getNumBases]

/-- C7, at a concrete input: a double with runners on first and third, read at third
base. -/
theorem simple_implementHit_advances_witness :
    ((2 : Int) = 1 ∨ (2 : Int) = 2) ∧
    (Simple.occupiedAt (Simple.implementHit 2 ⟨true, false, true⟩ 5).1 3 = true ↔
      ((3 : Int) = 2 ∨ ((1 : Int) ≤ 3 - 2 ∧ (3 : Int) - 2 ≤ 3 ∧
        Simple.occupiedAt ⟨true, false, true⟩ (3 - 2) = true))) ∧
    (Simple.implementHit 2 ⟨true, false, true⟩ 5).2
      = 5 + Simple.numScoring ⟨true, false, true⟩ 2 ∧
    Simple.updateStatus .DOUBLE ⟨true, false, true⟩ 5 1
      = ((Simple.implementHit 2 ⟨true, false, true⟩ 5).1,
         (Simple.implementHit 2 ⟨true, false, true⟩ 5).2, 1) :=
  have h := simple_implementHit_advances 2 (Or.inr rfl) ⟨true, false, true⟩ 5 1
  ⟨Or.inr rfl, h.1 3 (by decide) (by decide), h.2.1, h.2.2 .DOUBLE rfl⟩

/-! ## Outs on the bases -/

/-- When the draw matches neither outcome, `simulateBaserunning` adds an out and
returns at once: the three bases, the resolved runner included, and `runs` are as
before. -/
theorem Detailed.simulateBaserunning_of_thrownOut (bases : Detailed.Bases) (initBase : Int)
    (runs outs : Int) (rate1 : ℚ) (base1 : Int) (rate2 : ℚ) (base2 : Int) (g : RandomSource)
    (h : Detailed.thrownOut rate1 rate2 (g.draw g.next) = true) :
    Detailed.simulateBaserunning bases initBase runs outs rate1 base1 rate2 base2 g
      = (bases, runs, outs + 1, { g with next := g.next + 1 }) := by
  simp only [Detailed.thrownOut, Bool.and_eq_true, Bool.not_eq_true', decide_eq_false_iff_not] at h
  simp [Detailed.simulateBaserunning, randomReal, h.1, h.2]

/-- C8, evaluated: after a DOUBLE with runner A on first whose draw (0.999) falls in
the out-on-bases mass (0.5549 + 0.4145 = 0.9694), `outs` is one higher and the batter is
on second, but A is still on first base. -/
theorem double_thrown_out_runner_stays_on_first :
    Detailed.updateStatus .DOUBLE ⟨some Detailed.runnerA, none, none⟩ 0 0
        Detailed.nextPlayer drawsHigh
      = (⟨some Detailed.runnerA, some Detailed.nextPlayer, none⟩, 0, 1,
          { drawsHigh with next := 1 }) := by
  have h : Detailed.thrownOut Detailed.runnerA.br1d3Rate Detailed.runnerA.br1dHRate
      (drawsHigh.draw drawsHigh.next) = true := by
    simp [Detailed.thrownOut, Detailed.runnerA, Detailed.nextPlayer, drawsHigh]
    norm_num
  simp [Detailed.updateStatus, Detailed.implementHit, Detailed.implementDouble,
    Detailed.simulateBaserunning_of_thrownOut _ _ _ _ _ _ _ _ _ h]
  rfl

/-- C9, refuted as stated: a SINGLE with runner A on first and runner B on second,
both draws (0.999) in the out-on-bases mass, takes `outs` from 0 to 2, which is
neither 0 nor 0 + 1. -/
theorem single_both_runners_thrown_out_two_outs :
    (Detailed.updateStatus .SINGLE ⟨some Detailed.runnerA, some Detailed.runnerB, none⟩ 0 0
        Detailed.nextPlayer drawsHigh).2.2.1 = 2 ∧
    ¬ ((Detailed.updateStatus .SINGLE ⟨some Detailed.runnerA, some Detailed.runnerB, none⟩ 0 0
          Detailed.nextPlayer drawsHigh).2.2.1 = 0 ∨
       (Detailed.updateStatus .SINGLE ⟨some Detailed.runnerA, some Detailed.runnerB, none⟩ 0 0
          Detailed.nextPlayer drawsHigh).2.2.1 = 0 + 1) := by
  have hB : Detailed.thrownOut Detailed.runnerB.br2s3Rate Detailed.runnerB.br2sHRate
      (drawsHigh.draw drawsHigh.next) = true := by
    simp [Detailed.thrownOut, Detailed.runnerB, Detailed.nextPlayer, drawsHigh]
    norm_num
  have hA : Detailed.thrownOut Detailed.runnerA.br1s2Rate Detailed.runnerA.br1s3Rate
      (drawsHigh.draw (drawsHigh.next + 1)) = true := by
    simp [Detailed.thrownOut, Detailed.runnerA, Detailed.nextPlayer, drawsHigh]
    norm_num
  have h : (Detailed.updateStatus .SINGLE ⟨some Detailed.runnerA, some Detailed.runnerB, none⟩
      0 0 Detailed.nextPlayer drawsHigh).2.2.1 = 2 := by
    simp [Detailed.updateStatus, Detailed.implementHit, Detailed.implementSingle,
      Detailed.simulateBaserunning_of_thrownOut _ _ _ _ _ _ _ _ _ hB,
      Detailed.simulateBaserunning_of_thrownOut _ _ _ _ _ _ _ _
        { drawsHigh with next := drawsHigh.next + 1 } hA]
  rw [h]
  decide

/-- The out counter and the random source after `simulateBaserunning`: one more out
exactly when the draw is in the out-on-bases mass, and one draw consumed. -/
theorem Detailed.simulateBaserunning_outs (bases : Detailed.Bases) (initBase : Int)
    (runs outs : Int) (rate1 : ℚ) (base1 : Int) (rate2 : ℚ) (base2 : Int) (g : RandomSource) :
    (Detailed.simulateBaserunning bases initBase runs outs rate1 base1 rate2 base2 g).2.2
      = (outs + (if Detailed.thrownOut rate1 rate2 (g.draw g.next) then 1 else 0),
          { g with next := g.next + 1 }) := by
  simp only [Detailed.simulateBaserunning, randomReal, Detailed.thrownOut]
  by_cases h1 : g.draw g.next < rate1
  · simp [h1]
    split_ifs <;> simp
  · by_cases h2 : g.draw g.next - rate1 < rate2
    · simp [h1, h2]
      split_ifs <;> simp
    · simp [h1, h2]

/-- A runner of second resolved on a single (destinations third and home) leaves first
base as it was. -/
theorem Detailed.simulateBaserunning_second_keeps_first (bases : Detailed.Bases)
    (runs outs : Int) (rate1 rate2 : ℚ) (g : RandomSource) (h3 : bases.thirdBase = none) :
    (Detailed.simulateBaserunning bases 2 runs outs rate1 3 rate2 4 g).1.firstBase
      = bases.firstBase := by
  simp only [Detailed.simulateBaserunning, randomReal]
  by_cases h1 : g.draw g.next < rate1
  · simp [h1, h3]
  · by_cases h2 : g.draw g.next - rate1 < rate2
    · simp [h1, h2]
    · simp [h1, h2]

/-- The outs added by `implementDouble` are the runners it throws out on the bases. -/
theorem Detailed.implementDouble_outs (bases : Detailed.Bases) (runs outs : Int)
    (hitter : Detailed.player) (g : RandomSource) :
    (Detailed.implementDouble bases runs outs hitter g).2.2.1
      = outs + Detailed.outsOnBases .DOUBLE bases g := by
  rcases bases with ⟨_ | A, _ | B, _ | C⟩ <;>
    simp [Detailed.implementDouble, Detailed.outsOnBases, Detailed.simulateBaserunning_outs]

/-- The outs added by `implementSingle` are the runners it throws out on the bases. -/
theorem Detailed.implementSingle_outs (bases : Detailed.Bases) (runs outs : Int)
    (hitter : Detailed.player) (g : RandomSource) :
    (Detailed.implementSingle bases runs outs hitter g).2.2.1
      = outs + Detailed.outsOnBases .SINGLE bases g := by
  rcases bases with ⟨_ | A, _ | B, _ | C⟩ <;>
    simp [Detailed.implementSingle, Detailed.outsOnBases, Detailed.simulateBaserunning_outs,
      Detailed.simulateBaserunning_second_keeps_first] <;>
    ring

/-- The number of runners thrown out on the bases during a play is 0, 1 or 2, and it is
0 unless the play is a double or a single. -/
theorem Detailed.outsOnBases_bounds (result : plateAppearanceResult) (bases : Detailed.Bases)
    (g : RandomSource) :
    0 ≤ Detailed.outsOnBases result bases g ∧
    (if result = .OUT_IN_PLAY ∨ result = .STRIKOUT then (1 : Int) else 0)
      + Detailed.outsOnBases result bases g ≤ 2 := by
  rcases bases with ⟨_ | A, _ | B, _ | C⟩ <;> cases result <;>
    simp [Detailed.outsOnBases] <;> split_ifs <;> simp

/-- C9, amended: in the detailed model `updateStatus` gives
`outs_after = outs_before + (1 for OUT_IN_PLAY or STRIKOUT) + (runners thrown out on
the bases during the play)`; the amount added is 0, 1 or 2, and `outs` increases if and
only if the outcome was OUT_IN_PLAY or STRIKOUT or a baserunning out-on-bases
occurred. -/
theorem detailed_updateStatus_outs_count (result : plateAppearanceResult)
    (bases : Detailed.Bases) (runs outs : Int) (hitter : Detailed.player) (g : RandomSource) :
    (Detailed.updateStatus result bases runs outs hitter g).2.2.1
      = outs + (if result = .OUT_IN_PLAY ∨ result = .STRIKOUT then 1 else 0)
          + Detailed.outsOnBases result bases g ∧
    0 ≤ Detailed.outsOnBases result bases g ∧
    (if result = .OUT_IN_PLAY ∨ result = .STRIKOUT then (1 : Int) else 0)
      + Detailed.outsOnBases result bases g ≤ 2 ∧
    ((Detailed.updateStatus result bases runs outs hitter g).2.2.1 = outs ∨
      (Detailed.updateStatus result bases runs outs hitter g).2.2.1 = outs + 1 ∨
      (Detailed.updateStatus result bases runs outs hitter g).2.2.1 = outs + 2) ∧
    (outs < (Detailed.updateStatus result bases runs outs hitter g).2.2.1 ↔
      (result = .OUT_IN_PLAY ∨ result = .STRIKOUT ∨
        0 < Detailed.outsOnBases result bases g)) := by
  have hb := Detailed.outsOnBases_bounds result bases g
  have h : (Detailed.updateStatus result bases runs outs hitter g).2.2.1
      = outs + (if result = .OUT_IN_PLAY ∨ result = .STRIKOUT then 1 else 0)
          + Detailed.outsOnBases result bases g := by
    cases result
    case DOUBLE =>
      simp [Detailed.updateStatus, Detailed.implementHit, Detailed.implementDouble_outs]
    case SINGLE =>
      simp [Detailed.updateStatus, Detailed.implementHit, Detailed.implementSingle_outs]
    all_goals simp [Detailed.updateStatus, Detailed.implementHit, Detailed.outsOnBases]
  refine ⟨h, hb.1, hb.2, ?_, ?_⟩
  · rw [h]
    by_cases hr : result = .OUT_IN_PLAY ∨ result = .STRIKOUT
    · simp only [hr, if_true] at hb ⊢
      omega
    · simp only [hr, if_false] at hb ⊢
      omega
  · rw [h]
    by_cases hr : result = .OUT_IN_PLAY ∨ result = .STRIKOUT
    · simp only [hr, if_true] at hb ⊢
      constructor
      · intro _
        rcases hr with hr | hr
        · exact Or.inl hr
        · exact Or.inr (Or.inl hr)
      · intro _
        omega
    · simp only [hr, if_false] at hb ⊢
      constructor
      · intro hlt
        exact Or.inr (Or.inr (by omega))
      · rintro (h1 | h1 | h1)
        · exact absurd (Or.inl h1) hr
        · exact absurd (Or.inr h1) hr
        · omega

/-! ## The out counter of a half-inning -/

/-- C10, evaluated: with the lineup of `initializeBattingOrder` and the draws of
`drawsFourOuts` (two strikeouts, two walks, then a single on which the runner of second
and the runner of first are both thrown out), the loop of `simulateInning` leaves with
`outs = 4` after five plate appearances, and the bases are not cleared. -/
theorem simulateInning_reaches_four_outs :
    Detailed.simulateInningLoop Detailed.initializeBattingOrder 5
        (Detailed.inningStart 0 0 drawsFourOuts)
      = .ok { bases := ⟨some Detailed.nextPlayer, some Detailed.nextPlayer, none⟩,
              outs := 4, runs := 0, battingPosition := 5,
              g := ⟨drawsFourOuts.draw, 7⟩ } := by
  have r0 : Detailed.initializeBattingOrder.read 0 = some Detailed.nextPlayer := rfl
  have r1 : Detailed.initializeBattingOrder.read 1 = some Detailed.nextPlayer := rfl
  have r2 : Detailed.initializeBattingOrder.read 2 = some Detailed.nextPlayer := rfl
  have r3 : Detailed.initializeBattingOrder.read 3 = some Detailed.nextPlayer := rfl
  have r4 : Detailed.initializeBattingOrder.read 4 = some Detailed.nextPlayer := rfl
  have t1 : Int.tmod 1 9 = 1 := rfl
  have t2 : Int.tmod 2 9 = 2 := rfl
  have t3 : Int.tmod 3 9 = 3 := rfl
  have t4 : Int.tmod 4 9 = 4 := rfl
  have t5 : Int.tmod 5 9 = 5 := rfl
  -- the five outcomes drawn by the sampler
  have e0 : Detailed.determinePlateAppearanceResult Detailed.nextPlayer drawsFourOuts
      = (.STRIKOUT, ⟨drawsFourOuts.draw, 1⟩) := by
    simp [Detailed.determinePlateAppearanceResult, randomReal, Detailed.nextPlayer, drawsFourOuts]
    norm_num
  have e1 : Detailed.determinePlateAppearanceResult Detailed.nextPlayer
      ⟨drawsFourOuts.draw, 1⟩ = (.STRIKOUT, ⟨drawsFourOuts.draw, 2⟩) := by
    simp [Detailed.determinePlateAppearanceResult, randomReal, Detailed.nextPlayer, drawsFourOuts]
    norm_num
  have e2 : Detailed.determinePlateAppearanceResult Detailed.nextPlayer
      ⟨drawsFourOuts.draw, 2⟩ = (.WALK, ⟨drawsFourOuts.draw, 3⟩) := by
    simp [Detailed.determinePlateAppearanceResult, randomReal, Detailed.nextPlayer, drawsFourOuts]
    norm_num
  have e3 : Detailed.determinePlateAppearanceResult Detailed.nextPlayer
      ⟨drawsFourOuts.draw, 3⟩ = (.WALK, ⟨drawsFourOuts.draw, 4⟩) := by
    simp [Detailed.determinePlateAppearanceResult, randomReal, Detailed.nextPlayer, drawsFourOuts]
    norm_num
  have e4 : Detailed.determinePlateAppearanceResult Detailed.nextPlayer
      ⟨drawsFourOuts.draw, 4⟩ = (.SINGLE, ⟨drawsFourOuts.draw, 5⟩) := by
    simp [Detailed.determinePlateAppearanceResult, randomReal, Detailed.nextPlayer, drawsFourOuts]
    norm_num
  -- the two runners of the single are thrown out
  have hB : Detailed.thrownOut Detailed.nextPlayer.br2s3Rate Detailed.nextPlayer.br2sHRate
      (drawsFourOuts.draw 5) = true := by
    simp [Detailed.thrownOut, Detailed.nextPlayer, drawsFourOuts]
    norm_num
  have hA : Detailed.thrownOut Detailed.nextPlayer.br1s2Rate Detailed.nextPlayer.br1s3Rate
      (drawsFourOuts.draw 6) = true := by
    simp [Detailed.thrownOut, Detailed.nextPlayer, drawsFourOuts]
    norm_num
  have u4 : Detailed.implementHit .SINGLE ⟨some Detailed.nextPlayer, some Detailed.nextPlayer, none⟩
      0 2 Detailed.nextPlayer ⟨drawsFourOuts.draw, 5⟩
      = (⟨some Detailed.nextPlayer, some Detailed.nextPlayer, none⟩, 0, 4,
          ⟨drawsFourOuts.draw, 7⟩) := by
    simp [Detailed.implementHit, Detailed.implementSingle,
      Detailed.simulateBaserunning_of_thrownOut _ _ _ _ _ _ _ _
        ⟨drawsFourOuts.draw, 5⟩ hB,
      Detailed.simulateBaserunning_of_thrownOut _ _ _ _ _ _ _ _
        ⟨drawsFourOuts.draw, 6⟩ hA]
  simp [Detailed.simulateInningLoop, Detailed.plateAppearance, Detailed.inningStart,
    Detailed.updateStatus, Detailed.implementWalk, Detailed.clearBases, kNumOutsPerInning,
    kNumPlayers, r0, r1, r2, r3, r4, t1, t2, t3, t4, t5, e0, e1, e2, e3, e4, u4]

/-! ## Doubles and singles of the detailed model -/

/-- C11: in the detailed model, when the runner of first (if any) is not thrown out,
`implementDouble` scores the runners of third and of second, scores the runner of first
when its draw `r` has `br1d3Rate ≤ r < br1d3Rate + br1dHRate`, leaves first empty, puts
the batter on second and the former runner of first on third when `r < br1d3Rate`
(third is empty otherwise), and leaves `outs` unchanged. A draw is consumed only when
first is occupied. -/
theorem detailed_implementDouble_runner_safe (bases : Detailed.Bases) (runs outs : Int)
    (hitter : Detailed.player) (g : RandomSource)
    (hsafe : ∀ A, bases.firstBase = some A →
      Detailed.thrownOut A.br1d3Rate A.br1dHRate (g.draw g.next) = false) :
    Detailed.implementDouble bases runs outs hitter g
      = ({ firstBase := none, secondBase := some hitter,
           thirdBase :=
             match bases.firstBase with
             | some A => if g.draw g.next < A.br1d3Rate then some A else none
             | none => none },
         runs + (if bases.thirdBase.isSome then 1 else 0)
           + (if bases.secondBase.isSome then 1 else 0)
           + (match bases.firstBase with
              | some A =>
                if A.br1d3Rate ≤ g.draw g.next ∧ g.draw g.next < A.br1d3Rate + A.br1dHRate
                then 1 else 0
              | none => 0),
         outs,
         if bases.firstBase.isSome then ⟨g.draw, g.next + 1⟩ else g) := by
  rcases bases with ⟨_ | A, s, t⟩
  · rcases s with _ | B <;> rcases t with _ | C <;> simp [Detailed.implementDouble]
  · have h := hsafe A rfl
    simp only [Detailed.thrownOut, Bool.and_eq_false_imp, Bool.not_eq_true', Bool.not_eq_false',
      decide_eq_false_iff_not, decide_eq_true_eq] at h
    by_cases h1 : g.draw g.next < A.br1d3Rate
    · rcases s with _ | B <;> rcases t with _ | C <;>
        simp [Detailed.implementDouble, Detailed.simulateBaserunning, randomReal, h1,
          not_le.mpr h1]
    · have h2 : g.draw g.next - A.br1d3Rate < A.br1dHRate := h h1
      have h3 : g.draw g.next < A.br1d3Rate + A.br1dHRate := by linarith
      rcases s with _ | B <;> rcases t with _ | C <;>
        simp [Detailed.implementDouble, Detailed.simulateBaserunning, randomReal, h1, h2, h3,
          not_lt.mp h1]

/-- C11, at a concrete input: runners on first and second, draw 0.6 (between 0.5549 and
0.5549 + 0.4145): both runners score and the batter stands alone on second. -/
theorem detailed_implementDouble_runner_safe_witness :
    Detailed.thrownOut Detailed.runnerA.br1d3Rate Detailed.runnerA.br1dHRate
        ((drawsConst (3 / 5)).draw (drawsConst (3 / 5)).next) = false ∧
    Detailed.implementDouble ⟨some Detailed.runnerA, some Detailed.runnerB, none⟩ 0 1
        Detailed.nextPlayer (drawsConst (3 / 5))
      = (⟨none, some Detailed.nextPlayer, none⟩, 2, 1, ⟨(drawsConst (3 / 5)).draw, 1⟩) := by
  have hs : Detailed.thrownOut Detailed.runnerA.br1d3Rate Detailed.runnerA.br1dHRate
      ((drawsConst (3 / 5)).draw (drawsConst (3 / 5)).next) = false := by
    simp [Detailed.thrownOut, Detailed.runnerA, Detailed.nextPlayer, drawsConst]
    norm_num
  refine ⟨hs, ?_⟩
  rw [detailed_implementDouble_runner_safe ⟨some Detailed.runnerA, some Detailed.runnerB, none⟩
    0 1 Detailed.nextPlayer (drawsConst (3 / 5)) (fun A hA => by cases hA; exact hs)]
  simp [Detailed.runnerA, Detailed.nextPlayer, drawsConst]
  norm_num

/-- A resolution that does not throw the runner out takes the first outcome or,
failing that, the second. -/
theorem Detailed.not_thrownOut_iff (rate1 rate2 rand : ℚ) :
    Detailed.thrownOut rate1 rate2 rand = false ↔
      (rand < rate1 ∨ (rate1 ≤ rand ∧ rand < rate1 + rate2)) := by
  simp only [Detailed.thrownOut, Bool.and_eq_false_imp, Bool.not_eq_true', Bool.not_eq_false',
    decide_eq_false_iff_not, decide_eq_true_eq]
  constructor
  · intro h
    by_cases h1 : rand < rate1
    · exact Or.inl h1
    · exact Or.inr ⟨not_lt.mp h1, by linarith [h h1]⟩
  · rintro (h | ⟨h1, h2⟩) hn
    · exact absurd h hn
    · linarith

/-- C12: in the detailed model, when no runner is thrown out and the runners of first
and second do not both select third, `implementSingle` scores the runner of third;
the runner B of second (draw `r2`, the next draw) ends on third if `r2 < br2s3Rate` and
scores if `br2s3Rate ≤ r2 < br2s3Rate + br2sHRate`; the runner A of first (draw `r1`,
the draw after B's, if any) ends on second if `r1 < br1s2Rate` and on third if
`br1s2Rate ≤ r1 < br1s2Rate + br1s3Rate`; the batter ends on first; no other base is
occupied; `outs` is unchanged. -/
theorem detailed_implementSingle_runners_safe (fA sB tC : Option Detailed.player)
    (runs outs : Int) (hitter : Detailed.player) (g : RandomSource)
    (hB : ∀ B, sB = some B →
      Detailed.thrownOut B.br2s3Rate B.br2sHRate (g.draw g.next) = false)
    (hA : ∀ A, fA = some A →
      Detailed.thrownOut A.br1s2Rate A.br1s3Rate
        (g.draw (g.next + if sB.isSome then 1 else 0)) = false)
    (hthird : ∀ A B, fA = some A → sB = some B →
      ¬ (g.draw g.next < B.br2s3Rate ∧
          (A.br1s2Rate ≤ g.draw (g.next + 1) ∧
            g.draw (g.next + 1) < A.br1s2Rate + A.br1s3Rate))) :
    Detailed.implementSingle ⟨fA, sB, tC⟩ runs outs hitter g
      = ({ firstBase := some hitter,
           secondBase :=
             match fA with
             | some A =>
               if g.draw (g.next + if sB.isSome then 1 else 0) < A.br1s2Rate then some A
               else none
             | none => none,
           thirdBase :=
             match sB, fA with
             | some B, some A =>
               if g.draw g.next < B.br2s3Rate then some B
               else if A.br1s2Rate ≤ g.draw (g.next + 1) ∧
                  g.draw (g.next + 1) < A.br1s2Rate + A.br1s3Rate then some A
               else none
             | some B, none => if g.draw g.next < B.br2s3Rate then some B else none
             | none, some A =>
               if A.br1s2Rate ≤ g.draw g.next ∧ g.draw g.next < A.br1s2Rate + A.br1s3Rate
               then some A else none
             | none, none => none },
         runs + (if tC.isSome then 1 else 0)
           + (match sB with
              | some B =>
                if B.br2s3Rate ≤ g.draw g.next ∧ g.draw g.next < B.br2s3Rate + B.br2sHRate
                then 1 else 0
              | none => 0),
         outs,
         ⟨g.draw, g.next + (if sB.isSome then 1 else 0) + (if fA.isSome then 1 else 0)⟩) := by
  rcases fA with _ | A <;> rcases sB with _ | B
  · rcases tC with _ | C <;> simp [Detailed.implementSingle]
  · have hb := (Detailed.not_thrownOut_iff _ _ _).mp (hB B rfl)
    rcases hb with h1 | ⟨h1, h2⟩
    · rcases tC with _ | C <;>
        simp [Detailed.implementSingle, Detailed.simulateBaserunning, randomReal, h1,
          not_le.mpr h1]
    · have h3 : g.draw g.next - B.br2s3Rate < B.br2sHRate := by linarith
      rcases tC with _ | C <;>
        simp [Detailed.implementSingle, Detailed.simulateBaserunning, randomReal, h1, h2, h3,
          not_lt.mpr h1]
  · have ha := (Detailed.not_thrownOut_iff _ _ _).mp (hA A rfl)
    simp only [Option.isSome_none, Bool.false_eq_true, if_false, add_zero] at ha
    rcases ha with h1 | ⟨h1, h2⟩
    · rcases tC with _ | C <;>
        simp [Detailed.implementSingle, Detailed.simulateBaserunning, randomReal, h1,
          not_le.mpr h1]
    · have h3 : g.draw g.next - A.br1s2Rate < A.br1s3Rate := by linarith
      rcases tC with _ | C <;>
        simp [Detailed.implementSingle, Detailed.simulateBaserunning, randomReal, h1, h2, h3,
          not_lt.mpr h1]
  · have hb := (Detailed.not_thrownOut_iff _ _ _).mp (hB B rfl)
    have ha := (Detailed.not_thrownOut_iff _ _ _).mp (hA A rfl)
    have ht := hthird A B rfl rfl
    simp only [Option.isSome_some, if_true] at ha
    rcases hb with b1 | ⟨b1, b2⟩
    · rcases ha with a1 | ⟨a1, a2⟩
      · rcases tC with _ | C <;>
          simp [Detailed.implementSingle, Detailed.simulateBaserunning, randomReal, b1, a1,
            not_le.mpr b1, not_le.mpr a1]
      · exact absurd ⟨b1, a1, a2⟩ ht
    · have b3 : g.draw g.next - B.br2s3Rate < B.br2sHRate := by linarith
      rcases ha with a1 | ⟨a1, a2⟩
      · rcases tC with _ | C <;>
          simp [Detailed.implementSingle, Detailed.simulateBaserunning, randomReal, b1, b2, b3,
            a1, not_lt.mpr b1, not_le.mpr a1]
      · have a3 : g.draw (g.next + 1) - A.br1s2Rate < A.br1s3Rate := by linarith
        rcases tC with _ | C <;>
          simp [Detailed.implementSingle, Detailed.simulateBaserunning, randomReal, b1, b2, b3,
            a1, a2, a3, not_lt.mpr b1, not_lt.mpr a1]

/-- C12, at a concrete input: runners A on first and B on second, both draws 0.5: B
scores (0.3664 ≤ 0.5 < 0.3664 + 0.5922), A stops at second (0.5 < 0.7060), the batter
is on first. -/
theorem detailed_implementSingle_runners_safe_witness :
    Detailed.thrownOut Detailed.runnerB.br2s3Rate Detailed.runnerB.br2sHRate
        ((drawsConst (1 / 2)).draw 0) = false ∧
    Detailed.thrownOut Detailed.runnerA.br1s2Rate Detailed.runnerA.br1s3Rate
        ((drawsConst (1 / 2)).draw 1) = false ∧
    ¬ ((drawsConst (1 / 2)).draw 0 < Detailed.runnerB.br2s3Rate) ∧
    Detailed.implementSingle ⟨some Detailed.runnerA, some Detailed.runnerB, none⟩ 0 1
        Detailed.nextPlayer (drawsConst (1 / 2))
      = (⟨some Detailed.nextPlayer, some Detailed.runnerA, none⟩, 1, 1,
          ⟨(drawsConst (1 / 2)).draw, 2⟩) := by
  have hb : Detailed.thrownOut Detailed.runnerB.br2s3Rate Detailed.runnerB.br2sHRate
      ((drawsConst (1 / 2)).draw 0) = false := by
    simp [Detailed.thrownOut, Detailed.runnerB, Detailed.nextPlayer, drawsConst]
    norm_num
  have ha : Detailed.thrownOut Detailed.runnerA.br1s2Rate Detailed.runnerA.br1s3Rate
      ((drawsConst (1 / 2)).draw 1) = false := by
    simp [Detailed.thrownOut, Detailed.runnerA, Detailed.nextPlayer, drawsConst]
    norm_num
  have hn : ¬ ((drawsConst (1 / 2)).draw 0 < Detailed.runnerB.br2s3Rate) := by
    simp [Detailed.runnerB, Detailed.nextPlayer, drawsConst]
    norm_num
  refine ⟨hb, ha, hn, ?_⟩
  rw [detailed_implementSingle_runners_safe (some Detailed.runnerA) (some Detailed.runnerB) none
    0 1 Detailed.nextPlayer (drawsConst (1 / 2))
    (fun B hB => by cases hB; exact hb)
    (fun A hA => by cases hA; exact ha)
    (fun A B hA hB h => by cases hA; cases hB; exact hn h.1)]
  simp [Detailed.runnerA, Detailed.runnerB, Detailed.nextPlayer, drawsConst]
  norm_num

/-! ## The outcome sampler -/

/-- The sampler of the detailed model is the weighted choice by cumulative threshold
over the pairs k, bb, 1b, 2b, 3b, hr with OUT_IN_PLAY as the remainder, and it consumes
one draw. -/
theorem Detailed.determinePlateAppearanceResult_eq_weightedChoice (p : Detailed.player)
    (g : RandomSource) :
    Detailed.determinePlateAppearanceResult p g
      = (weightedChoice .OUT_IN_PLAY (g.draw g.next) 0 (Detailed.outcomeTable p),
          ⟨g.draw, g.next + 1⟩) := by
  simp only [Detailed.determinePlateAppearanceResult, randomReal, weightedChoice,
    Detailed.outcomeTable, zero_add, sub_lt_iff_lt_add']
  split_ifs <;> first | rfl | (exfalso; linarith)

/-- C13: with non-negative rates (for the strikeout rate no sign is needed) and a draw
`r ≥ 0`, the sampler of the detailed model
is the weighted choice by cumulative threshold: with `c0 = 0, c1 = k, c2 = k + bb, ...,
c6 = k + bb + 1b + 2b + 3b + hr`, it returns the `i`-th outcome of (STRIKOUT, WALK,
SINGLE, DOUBLE, TRIPLE, HOME_RUN) if and only if `c(i-1) ≤ r < c(i)`, and OUT_IN_PLAY
if and only if `r ≥ c6`; it returns one of the seven outcomes for every draw. -/
theorem detailed_sampler_cumulative_threshold (p : Detailed.player) (g : RandomSource)
    (hbb : 0 ≤ p.bbRate) (h1b : 0 ≤ p.singleRate) (h2b : 0 ≤ p.doubleRate)
    (h3b : 0 ≤ p.tripleRate) (hhr : 0 ≤ p.homeRunRate) (hr : 0 ≤ g.draw g.next) :
    Detailed.determinePlateAppearanceResult p g
      = (weightedChoice .OUT_IN_PLAY (g.draw g.next) 0 (Detailed.outcomeTable p),
          ⟨g.draw, g.next + 1⟩) ∧
    ((Detailed.determinePlateAppearanceResult p g).1 = .STRIKOUT ↔
      (0 ≤ g.draw g.next ∧ g.draw g.next < p.kRate)) ∧
    ((Detailed.determinePlateAppearanceResult p g).1 = .WALK ↔
      (p.kRate ≤ g.draw g.next ∧ g.draw g.next < p.kRate + p.bbRate)) ∧
    ((Detailed.determinePlateAppearanceResult p g).1 = .SINGLE ↔
      (p.kRate + p.bbRate ≤ g.draw g.next ∧
        g.draw g.next < p.kRate + p.bbRate + p.singleRate)) ∧
    ((Detailed.determinePlateAppearanceResult p g).1 = .DOUBLE ↔
      (p.kRate + p.bbRate + p.singleRate ≤ g.draw g.next ∧
        g.draw g.next < p.kRate + p.bbRate + p.singleRate + p.doubleRate)) ∧
    ((Detailed.determinePlateAppearanceResult p g).1 = .TRIPLE ↔
      (p.kRate + p.bbRate + p.singleRate + p.doubleRate ≤ g.draw g.next ∧
        g.draw g.next < p.kRate + p.bbRate + p.singleRate + p.doubleRate + p.tripleRate)) ∧
    ((Detailed.determinePlateAppearanceResult p g).1 = .HOME_RUN ↔
      (p.kRate + p.bbRate + p.singleRate + p.doubleRate + p.tripleRate ≤ g.draw g.next ∧
        g.draw g.next
          < p.kRate + p.bbRate + p.singleRate + p.doubleRate + p.tripleRate + p.homeRunRate)) ∧
    ((Detailed.determinePlateAppearanceResult p g).1 = .OUT_IN_PLAY ↔
      p.kRate + p.bbRate + p.singleRate + p.doubleRate + p.tripleRate + p.homeRunRate
        ≤ g.draw g.next) ∧
    ((Detailed.determinePlateAppearanceResult p g).1 = .STRIKOUT ∨
      (Detailed.determinePlateAppearanceResult p g).1 = .WALK ∨
      (Detailed.determinePlateAppearanceResult p g).1 = .SINGLE ∨
      (Detailed.determinePlateAppearanceResult p g).1 = .DOUBLE ∨
      (Detailed.determinePlateAppearanceResult p g).1 = .TRIPLE ∨
      (Detailed.determinePlateAppearanceResult p g).1 = .HOME_RUN ∨
      (Detailed.determinePlateAppearanceResult p g).1 = .OUT_IN_PLAY) := by
  refine ⟨Detailed.determinePlateAppearanceResult_eq_weightedChoice p g, ?_⟩
  simp only [Detailed.determinePlateAppearanceResult, randomReal]
  split_ifs <;> simp <;> (repeat' constructor) <;> intros <;> linarith

/-- C13, at a concrete input: the player of `initializeBattingOrder` and the draw 0.3,
which lies between `c2 = 0.257182` and `c3 = 0.415743`: the outcome is SINGLE. -/
theorem detailed_sampler_cumulative_threshold_witness :
    (0 ≤ Detailed.nextPlayer.bbRate ∧ 0 ≤ Detailed.nextPlayer.singleRate ∧
      0 ≤ Detailed.nextPlayer.doubleRate ∧ 0 ≤ Detailed.nextPlayer.tripleRate ∧
      0 ≤ Detailed.nextPlayer.homeRunRate ∧
      0 ≤ (drawsConst (3 / 10)).draw (drawsConst (3 / 10)).next) ∧
    (Detailed.determinePlateAppearanceResult Detailed.nextPlayer (drawsConst (3 / 10))).1
      = .SINGLE := by
  have h0 : 0 ≤ Detailed.nextPlayer.bbRate ∧ 0 ≤ Detailed.nextPlayer.singleRate ∧
      0 ≤ Detailed.nextPlayer.doubleRate ∧ 0 ≤ Detailed.nextPlayer.tripleRate ∧
      0 ≤ Detailed.nextPlayer.homeRunRate ∧
      0 ≤ (drawsConst (3 / 10)).draw (drawsConst (3 / 10)).next := by
    simp [Detailed.nextPlayer, drawsConst]
    norm_num
  refine ⟨h0, ?_⟩
  refine (detailed_sampler_cumulative_threshold Detailed.nextPlayer (drawsConst (3 / 10))
    h0.1 h0.2.1 h0.2.2.1 h0.2.2.2.1 h0.2.2.2.2.1 h0.2.2.2.2.2).2.2.2.1.mpr ?_
  simp [Detailed.nextPlayer, drawsConst]
  norm_num

/-- The sampler of the simple model is the weighted choice by cumulative threshold over
the seven pairs outInPlay, k, bb, 1b, 2b, 3b, hr with OUT_IN_PLAY as the remainder, and
it consumes one draw. -/
theorem Simple.determinePlateAppearanceResult_eq_weightedChoice_simple (p : Simple.player)
    (g : RandomSource) :
    Simple.determinePlateAppearanceResult p g
      = (weightedChoice .OUT_IN_PLAY (g.draw g.next) 0 (Simple.outcomeTable p),
          ⟨g.draw, g.next + 1⟩) := by
  simp only [Simple.determinePlateAppearanceResult, randomReal, weightedChoice,
    Simple.outcomeTable, zero_add, sub_lt_iff_lt_add']
  split_ifs <;> first | rfl | (exfalso; linarith)

/-- C14, refuted as stated: for the player of the simple model's
`initializeBattingOrder` (all rates non-negative) and the draw 0.1 in [0,1), the draw is
below `kRate = 0.169351` and below the sum of the six rates k, bb, 1b, 2b, 3b, hr, yet
the sampler returns OUT_IN_PLAY: the draw is first tested against `outInPlayRate`. -/
theorem simple_sampler_tests_outInPlay_first :
    (0 ≤ (drawsConst (1 / 10)).draw 0 ∧ (drawsConst (1 / 10)).draw 0 < 1) ∧
    (drawsConst (1 / 10)).draw 0 < Simple.nextPlayer.kRate ∧
    (drawsConst (1 / 10)).draw 0 < Simple.nextPlayer.kRate + Simple.nextPlayer.bbRate
      + Simple.nextPlayer.singleRate + Simple.nextPlayer.doubleRate
      + Simple.nextPlayer.tripleRate + Simple.nextPlayer.homeRunRate ∧
    (Simple.determinePlateAppearanceResult Simple.nextPlayer (drawsConst (1 / 10))).1
      = .OUT_IN_PLAY ∧
    (Simple.determinePlateAppearanceResult Simple.nextPlayer (drawsConst (1 / 10))).1
      ≠ .STRIKOUT := by
  simp [Simple.determinePlateAppearanceResult, randomReal, Simple.nextPlayer, drawsConst]
  norm_num
  decide

/-- C14, amended: the sampler of the simple model tests the draw `r` against seven
probabilities in the fixed order outInPlay, k, bb, 1b, 2b, 3b, hr. For non-negative
rates bb, ..., hr: `r < outInPlayRate` gives OUT_IN_PLAY; the result is STRIKOUT if and
only if `outInPlayRate ≤ r < outInPlayRate + kRate`; and the result is OUT_IN_PLAY if
and only if `r < outInPlayRate` or `r` is at least the sum of the seven rates. -/
theorem simple_sampler_seven_thresholds (p : Simple.player) (g : RandomSource)
    (hbb : 0 ≤ p.bbRate) (h1b : 0 ≤ p.singleRate) (h2b : 0 ≤ p.doubleRate)
    (h3b : 0 ≤ p.tripleRate) (hhr : 0 ≤ p.homeRunRate) :
    Simple.determinePlateAppearanceResult p g
      = (weightedChoice .OUT_IN_PLAY (g.draw g.next) 0 (Simple.outcomeTable p),
          ⟨g.draw, g.next + 1⟩) ∧
    ((Simple.determinePlateAppearanceResult p g).1 = .STRIKOUT ↔
      (p.outInPlayRate ≤ g.draw g.next ∧ g.draw g.next < p.outInPlayRate + p.kRate)) ∧
    ((Simple.determinePlateAppearanceResult p g).1 = .OUT_IN_PLAY ↔
      (g.draw g.next < p.outInPlayRate ∨
        p.outInPlayRate + p.kRate + p.bbRate + p.singleRate + p.doubleRate + p.tripleRate
          + p.homeRunRate ≤ g.draw g.next)) := by
  refine ⟨Simple.determinePlateAppearanceResult_eq_weightedChoice_simple p g, ?_⟩
  simp only [Simple.determinePlateAppearanceResult, randomReal]
  split_ifs <;> simp <;> and_intros <;> intros <;>
    first | linarith | exact Or.inl (by linarith) | exact Or.inr (by linarith)

/-- C14 amended, at a concrete input: the player of the simple model's
`initializeBattingOrder` and the draw 0.6, between `outInPlayRate = 0.506757` and
`outInPlayRate + kRate = 0.676108`: the outcome is STRIKOUT. -/
theorem simple_sampler_seven_thresholds_witness :
    (0 ≤ Simple.nextPlayer.bbRate ∧ 0 ≤ Simple.nextPlayer.singleRate ∧
      0 ≤ Simple.nextPlayer.doubleRate ∧ 0 ≤ Simple.nextPlayer.tripleRate ∧
      0 ≤ Simple.nextPlayer.homeRunRate) ∧
    (Simple.determinePlateAppearanceResult Simple.nextPlayer (drawsConst (3 / 5))).1
      = .STRIKOUT := by
  have h0 : 0 ≤ Simple.nextPlayer.bbRate ∧ 0 ≤ Simple.nextPlayer.singleRate ∧
      0 ≤ Simple.nextPlayer.doubleRate ∧ 0 ≤ Simple.nextPlayer.tripleRate ∧
      0 ≤ Simple.nextPlayer.homeRunRate := by
    simp [Simple.nextPlayer]
    norm_num
  refine ⟨h0, ?_⟩
  refine (simple_sampler_seven_thresholds Simple.nextPlayer (drawsConst (3 / 5))
    h0.1 h0.2.1 h0.2.2.1 h0.2.2.2.1 h0.2.2.2.2).2.1.mpr ?_
  simp [Simple.nextPlayer, drawsConst]
  norm_num

/-! ## The inning loop and the lineup cursor -/

/-- The cursor update of `simulateInning`: from a non-negative position the C++
remainder is the mathematical one. -/
theorem tmod_succ_kNumPlayers (i : Int) (h0 : 0 ≤ i) :
    Int.tmod (i + 1) kNumPlayers = (i + 1) % 9 := by
  unfold kNumPlayers
  exact Int.tmod_eq_emod (by omega) (by decide)

/-- A lineup of nine players can be read at every position of [0,9). -/
theorem Detailed.battingOrder.read_of_size (lineup : Detailed.battingOrder)
    (hsize : lineup.players.size = 9) (i : Int) (h0 : 0 ≤ i) (h9 : i < 9) :
    ∃ p, lineup.read i = some p ∧ p ∈ lineup.players.toList := by
  have hlt : i.toNat < lineup.players.size := by omega
  refine ⟨lineup.players[i.toNat], ?_, ?_⟩
  · simp [Detailed.battingOrder.read, h0, Array.getElem?_eq_getElem hlt]
  · simp [Array.getElem_mem_toList]

/-- One plate appearance from a position of [0,9) reads the lineup inside the array and
moves the cursor to the next position modulo 9. -/
theorem Detailed.plateAppearance_cursor (lineup : Detailed.battingOrder)
    (hsize : lineup.players.size = 9) (s : Detailed.InningState)
    (h0 : 0 ≤ s.battingPosition) (h9 : s.battingPosition < 9) :
    ∃ s', Detailed.plateAppearance lineup s = .ok s' ∧
      s'.battingPosition = (s.battingPosition + 1) % 9 := by
  obtain ⟨p, hp, _⟩ := Detailed.battingOrder.read_of_size lineup hsize _ h0 h9
  simp [Detailed.plateAppearance, hp, tmod_succ_kNumPlayers _ h0]

/-- Any number of plate appearances from a position of [0,9) read the lineup inside the
array, and `n` of them move the cursor by `n` modulo 9. -/
theorem Detailed.plateAppearances_cursor (lineup : Detailed.battingOrder)
    (hsize : lineup.players.size = 9) (n : Nat) (s : Detailed.InningState)
    (h0 : 0 ≤ s.battingPosition) (h9 : s.battingPosition < 9) :
    ∃ s', Detailed.plateAppearances lineup n s = .ok s' ∧
      s'.battingPosition = (s.battingPosition + n) % 9 := by
  induction n generalizing s with
  | zero => exact ⟨s, rfl, by simp; omega⟩
  | succ n ih =>
    obtain ⟨s1, hs1, hp1⟩ := Detailed.plateAppearance_cursor lineup hsize s h0 h9
    obtain ⟨s', hs', hp'⟩ := ih s1 (by omega) (by omega)
    refine ⟨s', ?_, ?_⟩
    · simp [Detailed.plateAppearances, hs1, hs']
    · rw [hp', hp1]
      push_cast
      omega

/-- The loop of `simulateInning` never reads the lineup out of bounds when it is
entered at a position of [0,9). -/
theorem Detailed.simulateInningLoop_ne_badIndex (lineup : Detailed.battingOrder)
    (hsize : lineup.players.size = 9) (fuel : Nat) (s : Detailed.InningState)
    (h0 : 0 ≤ s.battingPosition) (h9 : s.battingPosition < 9) :
    Detailed.simulateInningLoop lineup fuel s ≠ .error .badIndex := by
  induction fuel generalizing s with
  | zero =>
    simp only [Detailed.simulateInningLoop]
    split_ifs <;> simp
  | succ fuel ih =>
    obtain ⟨s1, hs1, hp1⟩ := Detailed.plateAppearance_cursor lineup hsize s h0 h9
    simp only [Detailed.simulateInningLoop, hs1]
    split_ifs
    · simp
    · exact ih s1 (by omega) (by omega)
    · simp

/-- What the loop of `simulateInning` returns is the state after some number of plate
appearances (at most the fuel), with the bases cleared if it left at three outs. -/
theorem Detailed.simulateInningLoop_eq_plateAppearances (lineup : Detailed.battingOrder)
    (fuel : Nat) (s s' : Detailed.InningState)
    (h : Detailed.simulateInningLoop lineup fuel s = .ok s') :
    ∃ n s'', n ≤ fuel ∧ Detailed.plateAppearances lineup n s = .ok s'' ∧
      (s' = s'' ∨ s' = { s'' with bases := Detailed.clearBases s''.bases }) := by
  induction fuel generalizing s with
  | zero =>
    simp only [Detailed.simulateInningLoop] at h
    split_ifs at h
    cases h
    exact ⟨0, s', le_refl _, rfl, Or.inl rfl⟩
  | succ fuel ih =>
    simp only [Detailed.simulateInningLoop] at h
    split_ifs at h with hout
    · cases hpa : Detailed.plateAppearance lineup s with
      | error e => simp [hpa] at h
      | ok s1 =>
        simp only [hpa] at h
        split_ifs at h with h3
        · cases h
          exact ⟨1, s1, by omega, by simp [Detailed.plateAppearances, hpa], Or.inr rfl⟩
        · obtain ⟨n, s'', hn, hs'', hor⟩ := ih s1 h
          exact ⟨n + 1, s'', by omega, by simp [Detailed.plateAppearances, hpa, hs''], hor⟩
    · cases h
      exact ⟨0, s', Nat.zero_le _, rfl, Or.inl rfl⟩

/-- A lineup of nine players can be read at every position of [0,9). -/
theorem Simple.battingOrder.read_of_size_simple (lineup : Simple.battingOrder)
    (hsize : lineup.players.size = 9) (i : Int) (h0 : 0 ≤ i) (h9 : i < 9) :
    ∃ p, lineup.read i = some p ∧ p ∈ lineup.players.toList := by
  have hlt : i.toNat < lineup.players.size := by omega
  refine ⟨lineup.players[i.toNat], ?_, ?_⟩
  · simp [Simple.battingOrder.read, h0, Array.getElem?_eq_getElem hlt]
  · simp [Array.getElem_mem_toList]

/-- One plate appearance from a position of [0,9) reads the lineup inside the array and
moves the cursor to the next position modulo 9. -/
theorem Simple.plateAppearance_cursor_simple (lineup : Simple.battingOrder)
    (hsize : lineup.players.size = 9) (s : Simple.InningState)
    (h0 : 0 ≤ s.battingPosition) (h9 : s.battingPosition < 9) :
    ∃ s', Simple.plateAppearance lineup s = .ok s' ∧
      s'.battingPosition = (s.battingPosition + 1) % 9 := by
  obtain ⟨p, hp, _⟩ := Simple.battingOrder.read_of_size_simple lineup hsize _ h0 h9
  simp [Simple.plateAppearance, hp, tmod_succ_kNumPlayers _ h0]

/-- Any number of plate appearances from a position of [0,9) read the lineup inside the
array, and `n` of them move the cursor by `n` modulo 9. -/
theorem Simple.plateAppearances_cursor_simple (lineup : Simple.battingOrder)
    (hsize : lineup.players.size = 9) (n : Nat) (s : Simple.InningState)
    (h0 : 0 ≤ s.battingPosition) (h9 : s.battingPosition < 9) :
    ∃ s', Simple.plateAppearances lineup n s = .ok s' ∧
      s'.battingPosition = (s.battingPosition + n) % 9 := by
  induction n generalizing s with
  | zero => exact ⟨s, rfl, by simp; omega⟩
  | succ n ih =>
    obtain ⟨s1, hs1, hp1⟩ := Simple.plateAppearance_cursor_simple lineup hsize s h0 h9
    obtain ⟨s', hs', hp'⟩ := ih s1 (by omega) (by omega)
    refine ⟨s', ?_, ?_⟩
    · simp [Simple.plateAppearances, hs1, hs']
    · rw [hp', hp1]
      push_cast
      omega

/-- The loop of `simulateInning` never reads the lineup out of bounds when it is
entered at a position of [0,9). -/
theorem Simple.simulateInningLoop_ne_badIndex_simple (lineup : Simple.battingOrder)
    (hsize : lineup.players.size = 9) (fuel : Nat) (s : Simple.InningState)
    (h0 : 0 ≤ s.battingPosition) (h9 : s.battingPosition < 9) :
    Simple.simulateInningLoop lineup fuel s ≠ .error .badIndex := by
  induction fuel generalizing s with
  | zero =>
    simp only [Simple.simulateInningLoop]
    split_ifs <;> simp
  | succ fuel ih =>
    obtain ⟨s1, hs1, hp1⟩ := Simple.plateAppearance_cursor_simple lineup hsize s h0 h9
    simp only [Simple.simulateInningLoop, hs1]
    split_ifs
    · simp
    · exact ih s1 (by omega) (by omega)
    · simp

/-- What the loop of `simulateInning` returns is the state after some number of plate
appearances (at most the fuel), with the bases cleared if it left at three outs. -/
theorem Simple.simulateInningLoop_eq_plateAppearances_simple (lineup : Simple.battingOrder)
    (fuel : Nat) (s s' : Simple.InningState)
    (h : Simple.simulateInningLoop lineup fuel s = .ok s') :
    ∃ n s'', n ≤ fuel ∧ Simple.plateAppearances lineup n s = .ok s'' ∧
      (s' = s'' ∨ s' = { s'' with bases := Simple.clearBases s''.bases }) := by
  induction fuel generalizing s with
  | zero =>
    simp only [Simple.simulateInningLoop] at h
    split_ifs at h
    cases h
    exact ⟨0, s', le_refl _, rfl, Or.inl rfl⟩
  | succ fuel ih =>
    simp only [Simple.simulateInningLoop] at h
    split_ifs at h with hout
    · cases hpa : Simple.plateAppearance lineup s with
      | error e => simp [hpa] at h
      | ok s1 =>
        simp only [hpa] at h
        split_ifs at h with h3
        · cases h
          exact ⟨1, s1, by omega, by simp [Simple.plateAppearances, hpa], Or.inr rfl⟩
        · obtain ⟨n, s'', hn, hs'', hor⟩ := ih s1 h
          exact ⟨n + 1, s'', by omega, by simp [Simple.plateAppearances, hpa, hs''], hor⟩
    · cases h
      exact ⟨0, s', Nat.zero_le _, rfl, Or.inl rfl⟩

/-! ## The all-strikeout lineup -/

/-- With strikeout rate 1 and draws below 1, a plate appearance of the detailed model
from a position of [0,9) is a strikeout: one more out, one draw, the cursor advanced,
bases and runs as before. -/
theorem Detailed.plateAppearance_all_strikeout (lineup : Detailed.battingOrder)
    (hsize : lineup.players.size = 9) (hk : ∀ p ∈ lineup.players.toList, p.kRate = 1)
    (s : Detailed.InningState) (hdraw : ∀ k, s.g.draw k < 1)
    (h0 : 0 ≤ s.battingPosition) (h9 : s.battingPosition < 9) :
    Detailed.plateAppearance lineup s
      = .ok { bases := s.bases, outs := s.outs + 1, runs := s.runs,
              battingPosition := (s.battingPosition + 1) % 9,
              g := ⟨s.g.draw, s.g.next + 1⟩ } := by
  obtain ⟨p, hp, hmem⟩ := Detailed.battingOrder.read_of_size lineup hsize _ h0 h9
  have hlt : s.g.draw s.g.next < p.kRate := by rw [hk p hmem]; exact hdraw _
  simp [Detailed.plateAppearance, hp, tmod_succ_kNumPlayers _ h0,
    Detailed.determinePlateAppearanceResult, randomReal, hlt, Detailed.updateStatus]

/-- With strikeout rate 1 and draws below 1, a half-inning of the detailed model is three
plate appearances: it returns with the runs it was given, the cursor three places on and
three draws consumed. -/
theorem Detailed.simulateInningLoop_all_strikeout (lineup : Detailed.battingOrder)
    (hsize : lineup.players.size = 9) (hk : ∀ p ∈ lineup.players.toList, p.kRate = 1)
    (fuel : Nat) (runs p : Int) (g : RandomSource) (hdraw : ∀ k, g.draw k < 1)
    (h0 : 0 ≤ p) (h9 : p < 9) :
    Detailed.simulateInningLoop lineup (fuel + 3) (Detailed.inningStart runs p g)
      = .ok { bases := ⟨none, none, none⟩, outs := 3, runs := runs,
              battingPosition := (p + 3) % 9, g := ⟨g.draw, g.next + 3⟩ } := by
  have e1 := Detailed.plateAppearance_all_strikeout lineup hsize hk
    (Detailed.inningStart runs p g) hdraw h0 h9
  have e2 := Detailed.plateAppearance_all_strikeout lineup hsize hk
    { bases := (Detailed.inningStart runs p g).bases, outs := 0 + 1, runs := runs,
      battingPosition := (p + 1) % 9, g := ⟨g.draw, g.next + 1⟩ } hdraw
    (by show 0 ≤ (p + 1) % 9; omega) (by show (p + 1) % 9 < 9; omega)
  have e3 := Detailed.plateAppearance_all_strikeout lineup hsize hk
    { bases := (Detailed.inningStart runs p g).bases, outs := 0 + 1 + 1, runs := runs,
      battingPosition := ((p + 1) % 9 + 1) % 9, g := ⟨g.draw, g.next + 1 + 1⟩ } hdraw
    (by show 0 ≤ ((p + 1) % 9 + 1) % 9; omega) (by show ((p + 1) % 9 + 1) % 9 < 9; omega)
  have hpos : (((p + 1) % 9 + 1) % 9 + 1) % 9 = (p + 3) % 9 := by omega
  simp [Detailed.inningStart, Detailed.clearBases, add_assoc] at e1 e2 e3
  simp [Detailed.simulateInningLoop, Detailed.inningStart, kNumOutsPerInning, e1, e2, e3,
    Detailed.clearBases, hpos]

/-- With strikeout rate 1 and draws below 1, two plate appearances do not end a
half-inning of the detailed model. -/
theorem Detailed.simulateInningLoop_all_strikeout_two (lineup : Detailed.battingOrder)
    (hsize : lineup.players.size = 9) (hk : ∀ p ∈ lineup.players.toList, p.kRate = 1)
    (runs p : Int) (g : RandomSource) (hdraw : ∀ k, g.draw k < 1)
    (h0 : 0 ≤ p) (h9 : p < 9) :
    Detailed.simulateInningLoop lineup 2 (Detailed.inningStart runs p g)
      = .error .outOfFuel := by
  have e1 := Detailed.plateAppearance_all_strikeout lineup hsize hk
    (Detailed.inningStart runs p g) hdraw h0 h9
  have e2 := Detailed.plateAppearance_all_strikeout lineup hsize hk
    { bases := (Detailed.inningStart runs p g).bases, outs := 0 + 1, runs := runs,
      battingPosition := (p + 1) % 9, g := ⟨g.draw, g.next + 1⟩ } hdraw
    (by show 0 ≤ (p + 1) % 9; omega) (by show (p + 1) % 9 < 9; omega)
  simp [Detailed.inningStart, Detailed.clearBases, add_assoc] at e1 e2
  simp [Detailed.simulateInningLoop, Detailed.inningStart, kNumOutsPerInning, e1, e2,
    Detailed.clearBases]

/-- With strikeout rate 1 and draws below 1, `innings` half-innings of the detailed model
score nothing and consume three draws each. -/
theorem Detailed.simulateGameLoop_all_strikeout (lineup : Detailed.battingOrder)
    (hsize : lineup.players.size = 9) (hk : ∀ p ∈ lineup.players.toList, p.kRate = 1)
    (fuel innings : Nat) (runs p : Int) (g : RandomSource) (hdraw : ∀ k, g.draw k < 1)
    (h0 : 0 ≤ p) (h9 : p < 9) :
    Detailed.simulateGameLoop (fuel + 3) lineup innings runs p g
      = .ok (runs, (p + 3 * innings) % 9, ⟨g.draw, g.next + 3 * innings⟩) := by
  induction innings generalizing p g with
  | zero =>
    have hp : p % 9 = p := by omega
    simp [Detailed.simulateGameLoop, hp]
  | succ k ih =>
    have hloop := Detailed.simulateInningLoop_all_strikeout lineup hsize hk fuel runs p g
      hdraw h0 h9
    have hrec := ih ((p + 3) % 9) ⟨g.draw, g.next + 3⟩ hdraw (by omega) (by omega)
    have hp : ((p + 3) % 9 + 3 * (k : Int)) % 9 = (p + 3 * ((k + 1 : Nat) : Int)) % 9 := by
      push_cast
      omega
    simp only [Detailed.simulateGameLoop, Detailed.simulateInning, hloop, hrec, hp]
    simp
    omega

/-- With strikeout rate 1, a non-negative out-in-play rate and draws below 1, a plate
appearance of the simple model from a position of [0,9) is an out (OUT_IN_PLAY or
STRIKOUT): one more out, one draw, the cursor advanced, bases and runs as before. -/
theorem Simple.plateAppearance_all_strikeout_simple (lineup : Simple.battingOrder)
    (hsize : lineup.players.size = 9)
    (hk : ∀ p ∈ lineup.players.toList, p.kRate = 1 ∧ 0 ≤ p.outInPlayRate)
    (s : Simple.InningState) (hdraw : ∀ k, s.g.draw k < 1)
    (h0 : 0 ≤ s.battingPosition) (h9 : s.battingPosition < 9) :
    Simple.plateAppearance lineup s
      = .ok { bases := s.bases, outs := s.outs + 1, runs := s.runs,
              battingPosition := (s.battingPosition + 1) % 9,
              g := ⟨s.g.draw, s.g.next + 1⟩ } := by
  obtain ⟨p, hp, hmem⟩ := Simple.battingOrder.read_of_size_simple lineup hsize _ h0 h9
  have hlt : s.g.draw s.g.next - p.outInPlayRate < p.kRate := by
    rw [(hk p hmem).1]
    linarith [hdraw s.g.next, (hk p hmem).2]
  by_cases h1 : s.g.draw s.g.next < p.outInPlayRate
  · simp [Simple.plateAppearance, hp, tmod_succ_kNumPlayers _ h0,
      Simple.determinePlateAppearanceResult, randomReal, h1, Simple.updateStatus]
  · simp [Simple.plateAppearance, hp, tmod_succ_kNumPlayers _ h0,
      Simple.determinePlateAppearanceResult, randomReal, h1, hlt, Simple.updateStatus]

/-- With strikeout rate 1, a non-negative out-in-play rate and draws below 1, a
half-inning of the simple model is three plate appearances: it returns with the runs it
was given, the cursor three places on and three draws consumed. -/
theorem Simple.simulateInningLoop_all_strikeout_simple (lineup : Simple.battingOrder)
    (hsize : lineup.players.size = 9)
    (hk : ∀ p ∈ lineup.players.toList, p.kRate = 1 ∧ 0 ≤ p.outInPlayRate)
    (fuel : Nat) (runs p : Int) (g : RandomSource) (hdraw : ∀ k, g.draw k < 1)
    (h0 : 0 ≤ p) (h9 : p < 9) :
    Simple.simulateInningLoop lineup (fuel + 3) (Simple.inningStart runs p g)
      = .ok { bases := ⟨false, false, false⟩, outs := 3, runs := runs,
              battingPosition := (p + 3) % 9, g := ⟨g.draw, g.next + 3⟩ } := by
  have e1 := Simple.plateAppearance_all_strikeout_simple lineup hsize hk
    (Simple.inningStart runs p g) hdraw h0 h9
  have e2 := Simple.plateAppearance_all_strikeout_simple lineup hsize hk
    { bases := (Simple.inningStart runs p g).bases, outs := 0 + 1, runs := runs,
      battingPosition := (p + 1) % 9, g := ⟨g.draw, g.next + 1⟩ } hdraw
    (by show 0 ≤ (p + 1) % 9; omega) (by show (p + 1) % 9 < 9; omega)
  have e3 := Simple.plateAppearance_all_strikeout_simple lineup hsize hk
    { bases := (Simple.inningStart runs p g).bases, outs := 0 + 1 + 1, runs := runs,
      battingPosition := ((p + 1) % 9 + 1) % 9, g := ⟨g.draw, g.next + 1 + 1⟩ } hdraw
    (by show 0 ≤ ((p + 1) % 9 + 1) % 9; omega) (by show ((p + 1) % 9 + 1) % 9 < 9; omega)
  have hpos : (((p + 1) % 9 + 1) % 9 + 1) % 9 = (p + 3) % 9 := by omega
  simp [Simple.inningStart, Simple.clearBases, add_assoc] at e1 e2 e3
  simp [Simple.simulateInningLoop, Simple.inningStart, kNumOutsPerInning, e1, e2, e3,
    Simple.clearBases, hpos]

/-- With strikeout rate 1, a non-negative out-in-play rate and draws below 1, two plate
appearances do not end a half-inning of the simple model. -/
theorem Simple.simulateInningLoop_all_strikeout_two_simple (lineup : Simple.battingOrder)
    (hsize : lineup.players.size = 9)
    (hk : ∀ p ∈ lineup.players.toList, p.kRate = 1 ∧ 0 ≤ p.outInPlayRate)
    (runs p : Int) (g : RandomSource) (hdraw : ∀ k, g.draw k < 1)
    (h0 : 0 ≤ p) (h9 : p < 9) :
    Simple.simulateInningLoop lineup 2 (Simple.inningStart runs p g)
      = .error .outOfFuel := by
  have e1 := Simple.plateAppearance_all_strikeout_simple lineup hsize hk
    (Simple.inningStart runs p g) hdraw h0 h9
  have e2 := Simple.plateAppearance_all_strikeout_simple lineup hsize hk
    { bases := (Simple.inningStart runs p g).bases, outs := 0 + 1, runs := runs,
      battingPosition := (p + 1) % 9, g := ⟨g.draw, g.next + 1⟩ } hdraw
    (by show 0 ≤ (p + 1) % 9; omega) (by show (p + 1) % 9 < 9; omega)
  simp [Simple.inningStart, Simple.clearBases, add_assoc] at e1 e2
  simp [Simple.simulateInningLoop, Simple.inningStart, kNumOutsPerInning, e1, e2,
    Simple.clearBases]

/-- With strikeout rate 1, a non-negative out-in-play rate and draws below 1, `innings`
half-innings of the simple model score nothing and consume three draws each. -/
theorem Simple.simulateGameLoop_all_strikeout_simple (lineup : Simple.battingOrder)
    (hsize : lineup.players.size = 9)
    (hk : ∀ p ∈ lineup.players.toList, p.kRate = 1 ∧ 0 ≤ p.outInPlayRate)
    (fuel innings : Nat) (runs p : Int) (g : RandomSource) (hdraw : ∀ k, g.draw k < 1)
    (h0 : 0 ≤ p) (h9 : p < 9) :
    Simple.simulateGameLoop (fuel + 3) lineup innings runs p g
      = .ok (runs, (p + 3 * innings) % 9, ⟨g.draw, g.next + 3 * innings⟩) := by
  induction innings generalizing p g with
  | zero =>
    have hp : p % 9 = p := by omega
    simp [Simple.simulateGameLoop, hp]
  | succ k ih =>
    have hloop := Simple.simulateInningLoop_all_strikeout_simple lineup hsize hk fuel runs p g
      hdraw h0 h9
    have hrec := ih ((p + 3) % 9) ⟨g.draw, g.next + 3⟩ hdraw (by omega) (by omega)
    have hp : ((p + 3) % 9 + 3 * (k : Int)) % 9 = (p + 3 * ((k + 1 : Nat) : Int)) % 9 := by
      push_cast
      omega
    simp only [Simple.simulateGameLoop, Simple.simulateInning, hloop, hrec, hp]
    simp
    omega

/-- C15: in both models, for a lineup of nine players with strikeout rate 1 (and, in the
simple model, a non-negative out-in-play rate) and draws below 1, every plate
appearance is an out, each half-inning ends after exactly three plate appearances (two
do not end it), and `simulateGame` returns 0 runs after 27 draws. -/
theorem all_strikeout_lineup_scores_nothing
    (sl : Simple.battingOrder) (dl : Detailed.battingOrder)
    (hs : sl.players.size = 9) (hd : dl.players.size = 9)
    (hsk : ∀ p ∈ sl.players.toList, p.kRate = 1 ∧ 0 ≤ p.outInPlayRate)
    (hdk : ∀ p ∈ dl.players.toList, p.kRate = 1)
    (g : RandomSource) (hdraw : ∀ k, g.draw k < 1)
    (fuel : Nat) (runs outs p : Int) (h0 : 0 ≤ p) (h9 : p < 9)
    (sb : Simple.Bases) (db : Detailed.Bases) :
    Simple.plateAppearance sl ⟨sb, outs, runs, p, g⟩
      = .ok ⟨sb, outs + 1, runs, (p + 1) % 9, ⟨g.draw, g.next + 1⟩⟩ ∧
    Detailed.plateAppearance dl ⟨db, outs, runs, p, g⟩
      = .ok ⟨db, outs + 1, runs, (p + 1) % 9, ⟨g.draw, g.next + 1⟩⟩ ∧
    Simple.simulateInning (fuel + 3) sl runs p g
      = .ok (runs, (p + 3) % 9, ⟨g.draw, g.next + 3⟩) ∧
    Detailed.simulateInning (fuel + 3) dl runs p g
      = .ok (runs, (p + 3) % 9, ⟨g.draw, g.next + 3⟩) ∧
    Simple.simulateInning 2 sl runs p g = .error .outOfFuel ∧
    Detailed.simulateInning 2 dl runs p g = .error .outOfFuel ∧
    Simple.simulateGame (fuel + 3) sl g = .ok (0, ⟨g.draw, g.next + 27⟩) ∧
    Detailed.simulateGame (fuel + 3) dl g = .ok (0, ⟨g.draw, g.next + 27⟩) := by
  refine ⟨?_, ?_, ?_, ?_, ?_, ?_, ?_, ?_⟩
  · exact Simple.plateAppearance_all_strikeout_simple sl hs hsk ⟨sb, outs, runs, p, g⟩ hdraw h0 h9
  · exact Detailed.plateAppearance_all_strikeout dl hd hdk ⟨db, outs, runs, p, g⟩ hdraw h0 h9
  · simp [Simple.simulateInning,
      Simple.simulateInningLoop_all_strikeout_simple sl hs hsk fuel runs p g hdraw h0 h9]
  · simp [Detailed.simulateInning,
      Detailed.simulateInningLoop_all_strikeout dl hd hdk fuel runs p g hdraw h0 h9]
  · simp [Simple.simulateInning,
      Simple.simulateInningLoop_all_strikeout_two_simple sl hs hsk runs p g hdraw h0 h9]
  · simp [Detailed.simulateInning,
      Detailed.simulateInningLoop_all_strikeout_two dl hd hdk runs p g hdraw h0 h9]
  · simp [Simple.simulateGame, kNumInningsPerGame,
      Simple.simulateGameLoop_all_strikeout_simple sl hs hsk fuel 9 0 0 g hdraw (le_refl _)
        (by decide)]
  · simp [Detailed.simulateGame, kNumInningsPerGame,
      Detailed.simulateGameLoop_all_strikeout dl hd hdk fuel 9 0 0 g hdraw (le_refl _)
        (by decide)]

/-- C15, at a concrete input: the two all-strikeout lineups and draws all equal to 0.5:
each game returns 0 runs after 27 draws. -/
theorem all_strikeout_lineup_scores_nothing_witness :
    (Simple.strikeoutLineup.players.size = 9 ∧ Detailed.strikeoutLineup.players.size = 9 ∧
      (∀ k, (drawsConst (1 / 2)).draw k < 1)) ∧
    Simple.simulateGame 3 Simple.strikeoutLineup (drawsConst (1 / 2))
      = .ok (0, ⟨(drawsConst (1 / 2)).draw, 27⟩) ∧
    Detailed.simulateGame 3 Detailed.strikeoutLineup (drawsConst (1 / 2))
      = .ok (0, ⟨(drawsConst (1 / 2)).draw, 27⟩) := by
  have hdraw : ∀ k, (drawsConst (1 / 2)).draw k < 1 := by
    intro k
    simp [drawsConst]
    norm_num
  have h := all_strikeout_lineup_scores_nothing Simple.strikeoutLineup Detailed.strikeoutLineup
    rfl rfl
    (by intro p hp; simp [Simple.strikeoutLineup] at hp; subst hp; simp)
    (by intro p hp; simp [Detailed.strikeoutLineup] at hp; subst hp; simp)
    (drawsConst (1 / 2)) hdraw 0 0 0 0 (le_refl _) (by decide)
    ⟨false, false, false⟩ ⟨none, none, none⟩
  exact ⟨⟨rfl, rfl, hdraw⟩, h.2.2.2.2.2.2.1, h.2.2.2.2.2.2.2⟩

/-! ## The all-home-run lineup -/

/-- With home-run rate 1, every other outcome rate 0 and a draw in [0,1), the sampler of
the detailed model returns HOME_RUN. -/
theorem Detailed.determinePlateAppearanceResult_all_home_run (q : Detailed.player)
    (hq : q.kRate = 0 ∧ q.bbRate = 0 ∧ q.singleRate = 0 ∧ q.doubleRate = 0 ∧
      q.tripleRate = 0 ∧ q.homeRunRate = 1)
    (g : RandomSource) (hlo : 0 ≤ g.draw g.next) (hhi : g.draw g.next < 1) :
    Detailed.determinePlateAppearanceResult q g = (.HOME_RUN, ⟨g.draw, g.next + 1⟩) := by
  obtain ⟨h1, h2, h3, h4, h5, h6⟩ := hq
  simp [Detailed.determinePlateAppearanceResult, randomReal, h1, h2, h3, h4, h5, h6, hhi,
    not_lt.mpr hlo]

/-- With such a lineup, a plate appearance of the detailed model from empty bases and a
position of [0,9) is a solo home run: one more run, no out, the bases still empty. -/
theorem Detailed.plateAppearance_all_home_run (lineup : Detailed.battingOrder)
    (hsize : lineup.players.size = 9)
    (hhr : ∀ q ∈ lineup.players.toList, q.kRate = 0 ∧ q.bbRate = 0 ∧ q.singleRate = 0 ∧
      q.doubleRate = 0 ∧ q.tripleRate = 0 ∧ q.homeRunRate = 1)
    (outs runs p : Int) (g : RandomSource) (hdraw : ∀ k, 0 ≤ g.draw k ∧ g.draw k < 1)
    (h0 : 0 ≤ p) (h9 : p < 9) :
    Detailed.plateAppearance lineup ⟨⟨none, none, none⟩, outs, runs, p, g⟩
      = .ok ⟨⟨none, none, none⟩, outs, runs + 1, (p + 1) % 9, ⟨g.draw, g.next + 1⟩⟩ := by
  obtain ⟨q, hq, hmem⟩ := Detailed.battingOrder.read_of_size lineup hsize p h0 h9
  have hres := Detailed.determinePlateAppearanceResult_all_home_run q (hhr q hmem) g
    (hdraw _).1 (hdraw _).2
  simp [Detailed.plateAppearance, hq, hres, tmod_succ_kNumPlayers _ h0, Detailed.updateStatus,
    Detailed.implementHit, Detailed.countBaserunners, Detailed.clearBases]

/-- With such a lineup, `n` plate appearances from empty bases leave the bases empty and
the out counter as it was, and add exactly `n` runs. -/
theorem Detailed.plateAppearances_all_home_run (lineup : Detailed.battingOrder)
    (hsize : lineup.players.size = 9)
    (hhr : ∀ q ∈ lineup.players.toList, q.kRate = 0 ∧ q.bbRate = 0 ∧ q.singleRate = 0 ∧
      q.doubleRate = 0 ∧ q.tripleRate = 0 ∧ q.homeRunRate = 1)
    (n : Nat) (outs runs p : Int) (g : RandomSource)
    (hdraw : ∀ k, 0 ≤ g.draw k ∧ g.draw k < 1) (h0 : 0 ≤ p) (h9 : p < 9) :
    Detailed.plateAppearances lineup n ⟨⟨none, none, none⟩, outs, runs, p, g⟩
      = .ok ⟨⟨none, none, none⟩, outs, runs + n, (p + n) % 9, ⟨g.draw, g.next + n⟩⟩ := by
  induction n generalizing runs p g with
  | zero =>
    have hp : p % 9 = p := by omega
    simp [Detailed.plateAppearances, hp]
  | succ n ih =>
    have h1 := Detailed.plateAppearance_all_home_run lineup hsize hhr outs runs p g hdraw h0 h9
    have h2 := ih (runs + 1) ((p + 1) % 9) ⟨g.draw, g.next + 1⟩ hdraw (by omega) (by omega)
    have hp : ((p + 1) % 9 + (n : Int)) % 9 = (p + ((n + 1 : Nat) : Int)) % 9 := by
      push_cast
      omega
    simp only [Detailed.plateAppearances, h1, h2, hp]
    simp
    refine ⟨by ring, by omega⟩

/-- With such a lineup, the loop of `simulateInning` entered with fewer than three outs
and empty bases does not return, whatever the fuel. -/
theorem Detailed.simulateInningLoop_all_home_run (lineup : Detailed.battingOrder)
    (hsize : lineup.players.size = 9)
    (hhr : ∀ q ∈ lineup.players.toList, q.kRate = 0 ∧ q.bbRate = 0 ∧ q.singleRate = 0 ∧
      q.doubleRate = 0 ∧ q.tripleRate = 0 ∧ q.homeRunRate = 1)
    (fuel : Nat) (outs runs p : Int) (g : RandomSource)
    (hdraw : ∀ k, 0 ≤ g.draw k ∧ g.draw k < 1) (h0 : 0 ≤ p) (h9 : p < 9) (hout : outs < 3) :
    Detailed.simulateInningLoop lineup fuel ⟨⟨none, none, none⟩, outs, runs, p, g⟩
      = .error .outOfFuel := by
  induction fuel generalizing runs p g with
  | zero => simp [Detailed.simulateInningLoop, kNumOutsPerInning, hout]
  | succ fuel ih =>
    have h1 := Detailed.plateAppearance_all_home_run lineup hsize hhr outs runs p g hdraw h0 h9
    have h2 := ih (runs + 1) ((p + 1) % 9) ⟨g.draw, g.next + 1⟩ hdraw (by omega) (by omega)
    have hne : outs ≠ 3 := by omega
    simp [Detailed.simulateInningLoop, kNumOutsPerInning, hout, h1, h2, hne]

/-- C16: in the detailed model, for a lineup of nine players with home-run rate 1 and
every other outcome rate 0 and draws in [0,1), every plate appearance is a HOME_RUN;
for every `n`, after `n` plate appearances of a half-inning started from empty bases,
`outs = 0`, the bases are empty and `runs` has increased by exactly `n`; so
`simulateInning` does not return: it exhausts every amount of fuel. -/
theorem all_home_run_inning_never_ends (lineup : Detailed.battingOrder)
    (hsize : lineup.players.size = 9)
    (hhr : ∀ q ∈ lineup.players.toList, q.kRate = 0 ∧ q.bbRate = 0 ∧ q.singleRate = 0 ∧
      q.doubleRate = 0 ∧ q.tripleRate = 0 ∧ q.homeRunRate = 1)
    (runs p : Int) (g : RandomSource) (hdraw : ∀ k, 0 ≤ g.draw k ∧ g.draw k < 1)
    (h0 : 0 ≤ p) (h9 : p < 9) :
    (∀ q ∈ lineup.players.toList, ∀ k,
      Detailed.determinePlateAppearanceResult q ⟨g.draw, k⟩ = (.HOME_RUN, ⟨g.draw, k + 1⟩)) ∧
    (∀ n : Nat, Detailed.plateAppearances lineup n (Detailed.inningStart runs p g)
      = .ok ⟨⟨none, none, none⟩, 0, runs + n, (p + n) % 9, ⟨g.draw, g.next + n⟩⟩) ∧
    (∀ fuel, Detailed.simulateInning fuel lineup runs p g = .error .outOfFuel) := by
  refine ⟨?_, ?_, ?_⟩
  · intro q hq k
    exact Detailed.determinePlateAppearanceResult_all_home_run q (hhr q hq) ⟨g.draw, k⟩
      (hdraw k).1 (hdraw k).2
  · intro n
    exact Detailed.plateAppearances_all_home_run lineup hsize hhr n 0 runs p g hdraw h0 h9
  · intro fuel
    have h := Detailed.simulateInningLoop_all_home_run lineup hsize hhr fuel 0 runs p g hdraw
      h0 h9 (by decide)
    simp only [Detailed.inningStart, Detailed.clearBases] at h ⊢
    simp [Detailed.simulateInning, Detailed.inningStart, Detailed.clearBases, h]

/-- C16, at a concrete input: the all-home-run lineup with draws all equal to 0.5: after
five plate appearances there are five runs and no out, and ten units of fuel do not end
the half-inning. -/
theorem all_home_run_inning_never_ends_witness :
    (Detailed.homeRunLineup.players.size = 9 ∧
      (∀ k, 0 ≤ (drawsConst (1 / 2)).draw k ∧ (drawsConst (1 / 2)).draw k < 1)) ∧
    Detailed.plateAppearances Detailed.homeRunLineup 5
        (Detailed.inningStart 0 0 (drawsConst (1 / 2)))
      = .ok ⟨⟨none, none, none⟩, 0, 5, 5, ⟨(drawsConst (1 / 2)).draw, 5⟩⟩ ∧
    Detailed.simulateInning 10 Detailed.homeRunLineup 0 0 (drawsConst (1 / 2))
      = .error .outOfFuel := by
  have hdraw : ∀ k, 0 ≤ (drawsConst (1 / 2)).draw k ∧ (drawsConst (1 / 2)).draw k < 1 := by
    intro k
    simp [drawsConst]
    norm_num
  have h := all_home_run_inning_never_ends Detailed.homeRunLineup rfl
    (by intro q hq; simp [Detailed.homeRunLineup] at hq; subst hq; simp)
    0 0 (drawsConst (1 / 2)) hdraw (le_refl _) (by decide)
  exact ⟨⟨rfl, hdraw⟩, h.2.1 5, h.2.2 10⟩

/-! ## Runs never decrease -/

/-- A baserunning resolution adds one run or none. -/
theorem Detailed.simulateBaserunning_runs (bases : Detailed.Bases) (initBase : Int)
    (runs outs : Int) (rate1 : ℚ) (base1 : Int) (rate2 : ℚ) (base2 : Int) (g : RandomSource) :
    runs ≤ (Detailed.simulateBaserunning bases initBase runs outs rate1 base1 rate2 base2 g).2.1
      := by
  simp only [Detailed.simulateBaserunning, randomReal]
  by_cases h1 : g.draw g.next < rate1
  · simp [h1]
    split_ifs <;> simp
  · by_cases h2 : g.draw g.next - rate1 < rate2
    · simp [h1, h2]
      split_ifs <;> simp
    · simp [h1, h2]

/-- A double of the detailed model does not decrease the runs. -/
theorem Detailed.implementDouble_runs (bases : Detailed.Bases) (runs outs : Int)
    (hitter : Detailed.player) (g : RandomSource) :
    runs ≤ (Detailed.implementDouble bases runs outs hitter g).2.1 := by
  rcases bases with ⟨_ | A, _ | B, _ | C⟩ <;> simp [Detailed.implementDouble]
  all_goals first
    | omega
    | exact le_trans (by omega) (Detailed.simulateBaserunning_runs _ _ _ _ _ _ _ _ _)

/-- A single of the detailed model does not decrease the runs. -/
theorem Detailed.implementSingle_runs (bases : Detailed.Bases) (runs outs : Int)
    (hitter : Detailed.player) (g : RandomSource) :
    runs ≤ (Detailed.implementSingle bases runs outs hitter g).2.1 := by
  rcases bases with ⟨_ | A, _ | B, _ | C⟩ <;>
    simp [Detailed.implementSingle, Detailed.simulateBaserunning_second_keeps_first]
  all_goals first
    | omega
    | exact le_trans (by omega) (Detailed.simulateBaserunning_runs _ _ _ _ _ _ _ _ _)
    | exact le_trans (le_trans (by omega) (Detailed.simulateBaserunning_runs _ _ _ _ _ _ _ _ _))
        (Detailed.simulateBaserunning_runs _ _ _ _ _ _ _ _ _)

/-- C17: in both models, for every outcome, batter, base state, out counter and draws,
the runs counter after `updateStatus` is at least the runs counter before it. -/
theorem updateStatus_runs_never_decrease (result : plateAppearanceResult)
    (sb : Simple.Bases) (db : Detailed.Bases) (runs outs : Int) (hitter : Detailed.player)
    (g : RandomSource) :
    runs ≤ (Simple.updateStatus result sb runs outs).2.1 ∧
    runs ≤ (Detailed.updateStatus result db runs outs hitter g).2.1 := by
  constructor
  · rcases sb with ⟨_ | _, _ | _, _ | _⟩ <;> cases result <;>
      simp [Simple.updateStatus, Simple.implementWalk, Simple.implementHit,
        Simple.moveBaserunner, Simple.getNumBases] <;> omega
  · cases result
    case DOUBLE =>
      simpa [Detailed.updateStatus, Detailed.implementHit] using
        Detailed.implementDouble_runs db runs outs hitter g
    case SINGLE =>
      simpa [Detailed.updateStatus, Detailed.implementHit] using
        Detailed.implementSingle_runs db runs outs hitter g
    all_goals
      rcases db with ⟨_ | A, _ | B, _ | C⟩ <;>
        simp [Detailed.updateStatus, Detailed.implementHit, Detailed.implementWalk,
          Detailed.countBaserunners]

/-! ## The blocked third base and the out on the bases -/

/-- C18: in the detailed model, on a SINGLE with runner A on first and runner B on
second, if B's draw sends B to third (`r2 < br2s3Rate`) and A's draw selects third
(`br1s2Rate ≤ r1 < br1s2Rate + br1s3Rate`), A is parked at second: the final state is B
on third, A on second, the batter on first; the two resolutions add no run (only a
former runner of third scores) and no out; the runners on the bases are exactly the
batter, A and B. -/
theorem single_blocked_third_parks_runner_at_second (A B hitter : Detailed.player)
    (tC : Option Detailed.player) (runs outs : Int) (g : RandomSource)
    (hB : g.draw g.next < B.br2s3Rate)
    (hA1 : A.br1s2Rate ≤ g.draw (g.next + 1))
    (hA2 : g.draw (g.next + 1) < A.br1s2Rate + A.br1s3Rate) :
    Detailed.updateStatus .SINGLE ⟨some A, some B, tC⟩ runs outs hitter g
      = (⟨some hitter, some A, some B⟩, runs + (if tC.isSome then 1 else 0), outs,
          ⟨g.draw, g.next + 2⟩) ∧
    Detailed.runners (Detailed.updateStatus .SINGLE ⟨some A, some B, tC⟩ runs outs hitter g).1
      = [hitter, A, B] := by
  have hA3 : g.draw (g.next + 1) - A.br1s2Rate < A.br1s3Rate := by linarith
  have h : Detailed.updateStatus .SINGLE ⟨some A, some B, tC⟩ runs outs hitter g
      = (⟨some hitter, some A, some B⟩, runs + (if tC.isSome then 1 else 0), outs,
          ⟨g.draw, g.next + 2⟩) := by
    rcases tC with _ | C <;>
      simp [Detailed.updateStatus, Detailed.implementHit, Detailed.implementSingle,
        Detailed.simulateBaserunning, randomReal, hB, hA3, not_lt.mpr hA1]
  exact ⟨h, by rw [h]; rfl⟩

/-- C18, at a concrete input: runners A on first and B on second, draws 0.3 for B and
0.8 for A. -/
theorem single_blocked_third_parks_runner_at_second_witness :
    (drawsBothToThird.draw drawsBothToThird.next < Detailed.runnerB.br2s3Rate ∧
      Detailed.runnerA.br1s2Rate ≤ drawsBothToThird.draw (drawsBothToThird.next + 1) ∧
      drawsBothToThird.draw (drawsBothToThird.next + 1)
        < Detailed.runnerA.br1s2Rate + Detailed.runnerA.br1s3Rate) ∧
    Detailed.updateStatus .SINGLE ⟨some Detailed.runnerA, some Detailed.runnerB, none⟩ 0 0
        Detailed.nextPlayer drawsBothToThird
      = (⟨some Detailed.nextPlayer, some Detailed.runnerA, some Detailed.runnerB⟩, 0, 0,
          ⟨drawsBothToThird.draw, 2⟩) := by
  have h0 : drawsBothToThird.draw drawsBothToThird.next < Detailed.runnerB.br2s3Rate ∧
      Detailed.runnerA.br1s2Rate ≤ drawsBothToThird.draw (drawsBothToThird.next + 1) ∧
      drawsBothToThird.draw (drawsBothToThird.next + 1)
        < Detailed.runnerA.br1s2Rate + Detailed.runnerA.br1s3Rate := by
    simp [drawsBothToThird, Detailed.runnerA, Detailed.runnerB, Detailed.nextPlayer]
    norm_num
  refine ⟨h0, ?_⟩
  have h := (single_blocked_third_parks_runner_at_second Detailed.runnerA Detailed.runnerB
    Detailed.nextPlayer none 0 0 drawsBothToThird h0.1 h0.2.1 h0.2.2).1
  simpa using h

/-- C19: in the detailed model, when `simulateBaserunning` takes its out-on-bases
branch, the three bases (so the two bases other than the runner's) and `runs` are
exactly as before the call, `outs` is one higher and one draw is consumed; and the
enclosing play still completes, whatever `outs` has become: after the runner of second
is thrown out, `implementSingle` still resolves the runner of first with the next draw
and still places the batter on first; after the runner of first is thrown out,
`implementDouble` still places the batter on second. -/
theorem out_on_bases_leaves_rest_of_play (bases : Detailed.Bases) (initBase : Int)
    (runs outs : Int) (rate1 : ℚ) (base1 : Int) (rate2 : ℚ) (base2 : Int) (g : RandomSource)
    (A B hitter : Detailed.player) (sB tC : Option Detailed.player) :
    (Detailed.thrownOut rate1 rate2 (g.draw g.next) = true →
      Detailed.simulateBaserunning bases initBase runs outs rate1 base1 rate2 base2 g
        = (bases, runs, outs + 1, ⟨g.draw, g.next + 1⟩)) ∧
    (Detailed.thrownOut B.br2s3Rate B.br2sHRate (g.draw g.next) = true →
      Detailed.implementSingle ⟨some A, some B, tC⟩ runs outs hitter g
        = ({ (Detailed.simulateBaserunning ⟨some A, some B, none⟩ 1
                (runs + if tC.isSome then 1 else 0) (outs + 1) A.br1s2Rate 2 A.br1s3Rate 3
                ⟨g.draw, g.next + 1⟩).1 with firstBase := some hitter },
            (Detailed.simulateBaserunning ⟨some A, some B, none⟩ 1
                (runs + if tC.isSome then 1 else 0) (outs + 1) A.br1s2Rate 2 A.br1s3Rate 3
                ⟨g.draw, g.next + 1⟩).2) ∧
      Detailed.implementSingle ⟨none, some B, tC⟩ runs outs hitter g
        = (⟨some hitter, some B, none⟩, runs + (if tC.isSome then 1 else 0), outs + 1,
            ⟨g.draw, g.next + 1⟩)) ∧
    (Detailed.thrownOut A.br1d3Rate A.br1dHRate (g.draw g.next) = true →
      Detailed.implementDouble ⟨some A, sB, tC⟩ runs outs hitter g
        = (⟨some A, some hitter, none⟩,
            runs + (if tC.isSome then 1 else 0) + (if sB.isSome then 1 else 0), outs + 1,
            ⟨g.draw, g.next + 1⟩)) := by
  refine ⟨?_, ?_, ?_⟩
  · intro h
    exact Detailed.simulateBaserunning_of_thrownOut bases initBase runs outs rate1 base1 rate2
      base2 g h
  · intro h
    constructor
    · rcases tC with _ | C <;>
        simp [Detailed.implementSingle, Detailed.simulateBaserunning_of_thrownOut _ _ _ _ _ _ _ _ _ h]
    · rcases tC with _ | C <;>
        simp [Detailed.implementSingle, Detailed.simulateBaserunning_of_thrownOut _ _ _ _ _ _ _ _ _ h]
  · intro h
    rcases tC with _ | C <;> rcases sB with _ | B' <;>
      simp [Detailed.implementDouble, Detailed.simulateBaserunning_of_thrownOut _ _ _ _ _ _ _ _ _ h]

/-- C19, at a concrete input: with two outs and draws of 0.999, the runner of first is
thrown out on a double and the batter is still placed on second with `outs = 3`; the
runner of second is thrown out on a single and the batter is still placed on first. -/
theorem out_on_bases_leaves_rest_of_play_witness :
    (Detailed.thrownOut Detailed.runnerB.br2s3Rate Detailed.runnerB.br2sHRate
        (drawsHigh.draw drawsHigh.next) = true ∧
      Detailed.thrownOut Detailed.runnerA.br1d3Rate Detailed.runnerA.br1dHRate
        (drawsHigh.draw drawsHigh.next) = true) ∧
    Detailed.implementSingle ⟨none, some Detailed.runnerB, none⟩ 0 2 Detailed.nextPlayer
        drawsHigh
      = (⟨some Detailed.nextPlayer, some Detailed.runnerB, none⟩, 0, 3, ⟨drawsHigh.draw, 1⟩) ∧
    Detailed.implementDouble ⟨some Detailed.runnerA, none, none⟩ 0 2 Detailed.nextPlayer
        drawsHigh
      = (⟨some Detailed.runnerA, some Detailed.nextPlayer, none⟩, 0, 3, ⟨drawsHigh.draw, 1⟩)
      := by
  have hB : Detailed.thrownOut Detailed.runnerB.br2s3Rate Detailed.runnerB.br2sHRate
      (drawsHigh.draw drawsHigh.next) = true := by
    simp [Detailed.thrownOut, Detailed.runnerB, Detailed.nextPlayer, drawsHigh]
    norm_num
  have hA : Detailed.thrownOut Detailed.runnerA.br1d3Rate Detailed.runnerA.br1dHRate
      (drawsHigh.draw drawsHigh.next) = true := by
    simp [Detailed.thrownOut, Detailed.runnerA, Detailed.nextPlayer, drawsHigh]
    norm_num
  have h := out_on_bases_leaves_rest_of_play ⟨none, none, none⟩ 1 0 2 0 3 0 4 drawsHigh
    Detailed.runnerA Detailed.runnerB Detailed.nextPlayer none none
  refine ⟨⟨hB, hA⟩, ?_, ?_⟩
  · simpa using (h.2.1 hB).2
  · simpa using h.2.2 hA

/-! ## The lineup cursor -/

/-- C20: in both models, for a lineup of nine players and a half-inning entered at a
position `p` of [0,9): whatever the number `n` of plate appearances, they all read the
lineup inside the array, the state after them stands at position `(p + n) mod 9`,
itself in [0,9), and one more plate appearance moves the cursor to that position plus
1 modulo 9; `simulateInning` never reads out of bounds; and when it returns after `n`
plate appearances, the position it returns is `(p + n) mod 9` and `simulateGame` enters
the next inning at that position. -/
theorem lineup_cursor_advances_modulo_nine
    (sl : Simple.battingOrder) (dl : Detailed.battingOrder)
    (hs : sl.players.size = 9) (hd : dl.players.size = 9)
    (fuel : Nat) (runs p : Int) (g : RandomSource) (h0 : 0 ≤ p) (h9 : p < 9) :
    ((∀ n : Nat, ∃ s s1, Simple.plateAppearances sl n (Simple.inningStart runs p g) = .ok s ∧
        s.battingPosition = (p + n) % 9 ∧ 0 ≤ s.battingPosition ∧ s.battingPosition < 9 ∧
        Simple.plateAppearance sl s = .ok s1 ∧
        s1.battingPosition = (s.battingPosition + 1) % 9) ∧
      Simple.simulateInning fuel sl runs p g ≠ .error .badIndex ∧
      (∀ runs1 p1 g1, Simple.simulateInning fuel sl runs p g = .ok (runs1, p1, g1) →
        (∃ n s, n ≤ fuel ∧ Simple.plateAppearances sl n (Simple.inningStart runs p g) = .ok s ∧
          s.runs = runs1 ∧ s.g = g1 ∧ p1 = (p + n) % 9) ∧
        ∀ innings, Simple.simulateGameLoop fuel sl (innings + 1) runs p g
          = Simple.simulateGameLoop fuel sl innings runs1 p1 g1)) ∧
    ((∀ n : Nat, ∃ s s1, Detailed.plateAppearances dl n (Detailed.inningStart runs p g) = .ok s ∧
        s.battingPosition = (p + n) % 9 ∧ 0 ≤ s.battingPosition ∧ s.battingPosition < 9 ∧
        Detailed.plateAppearance dl s = .ok s1 ∧
        s1.battingPosition = (s.battingPosition + 1) % 9) ∧
      Detailed.simulateInning fuel dl runs p g ≠ .error .badIndex ∧
      (∀ runs1 p1 g1, Detailed.simulateInning fuel dl runs p g = .ok (runs1, p1, g1) →
        (∃ n s, n ≤ fuel ∧
          Detailed.plateAppearances dl n (Detailed.inningStart runs p g) = .ok s ∧
          s.runs = runs1 ∧ s.g = g1 ∧ p1 = (p + n) % 9) ∧
        ∀ innings, Detailed.simulateGameLoop fuel dl (innings + 1) runs p g
          = Detailed.simulateGameLoop fuel dl innings runs1 p1 g1)) := by
  constructor
  · refine ⟨?_, ?_, ?_⟩
    · intro n
      obtain ⟨s, hs1, hs2⟩ := Simple.plateAppearances_cursor_simple sl hs n
        (Simple.inningStart runs p g) h0 h9
      have hp : s.battingPosition = (p + n) % 9 := hs2
      obtain ⟨s1, hs3, hs4⟩ := Simple.plateAppearance_cursor_simple sl hs s (by omega) (by omega)
      exact ⟨s, s1, hs1, hp, by omega, by omega, hs3, hs4⟩
    · have h := Simple.simulateInningLoop_ne_badIndex_simple sl hs fuel
        (Simple.inningStart runs p g) h0 h9
      intro hbad
      apply h
      simp only [Simple.simulateInning] at hbad
      cases hl : Simple.simulateInningLoop sl fuel (Simple.inningStart runs p g) with
      | error e => simp [hl] at hbad; rw [hbad]
      | ok s => simp [hl] at hbad
    · intro runs1 p1 g1 hret
      constructor
      · cases hl : Simple.simulateInningLoop sl fuel (Simple.inningStart runs p g) with
        | error e => simp [Simple.simulateInning, hl] at hret
        | ok s' =>
          simp [Simple.simulateInning, hl] at hret
          obtain ⟨n, s, hn, hpa, hor⟩ :=
            Simple.simulateInningLoop_eq_plateAppearances_simple sl fuel _ s' hl
          obtain ⟨s2, hs2, hp2⟩ := Simple.plateAppearances_cursor_simple sl hs n
            (Simple.inningStart runs p g) h0 h9
          rw [hpa] at hs2
          cases hs2
          have hp : s.battingPosition = (p + n) % 9 := hp2
          refine ⟨n, s, hn, hpa, ?_, ?_, ?_⟩
          · rcases hor with rfl | rfl <;> exact hret.1
          · rcases hor with rfl | rfl <;> exact hret.2.2
          · rcases hor with rfl | rfl <;> rw [← hret.2.1] <;> exact hp
      · intro innings
        simp [Simple.simulateGameLoop, hret]
  · refine ⟨?_, ?_, ?_⟩
    · intro n
      obtain ⟨s, hs1, hs2⟩ := Detailed.plateAppearances_cursor dl hd n
        (Detailed.inningStart runs p g) h0 h9
      have hp : s.battingPosition = (p + n) % 9 := hs2
      obtain ⟨s1, hs3, hs4⟩ := Detailed.plateAppearance_cursor dl hd s (by omega) (by omega)
      exact ⟨s, s1, hs1, hp, by omega, by omega, hs3, hs4⟩
    · have h := Detailed.simulateInningLoop_ne_badIndex dl hd fuel
        (Detailed.inningStart runs p g) h0 h9
      intro hbad
      apply h
      simp only [Detailed.simulateInning] at hbad
      cases hl : Detailed.simulateInningLoop dl fuel (Detailed.inningStart runs p g) with
      | error e => simp [hl] at hbad; rw [hbad]
      | ok s => simp [hl] at hbad
    · intro runs1 p1 g1 hret
      constructor
      · cases hl : Detailed.simulateInningLoop dl fuel (Detailed.inningStart runs p g) with
        | error e => simp [Detailed.simulateInning, hl] at hret
        | ok s' =>
          simp [Detailed.simulateInning, hl] at hret
          obtain ⟨n, s, hn, hpa, hor⟩ :=
            Detailed.simulateInningLoop_eq_plateAppearances dl fuel _ s' hl
          obtain ⟨s2, hs2, hp2⟩ := Detailed.plateAppearances_cursor dl hd n
            (Detailed.inningStart runs p g) h0 h9
          rw [hpa] at hs2
          cases hs2
          have hp : s.battingPosition = (p + n) % 9 := hp2
          refine ⟨n, s, hn, hpa, ?_, ?_, ?_⟩
          · rcases hor with rfl | rfl <;> exact hret.1
          · rcases hor with rfl | rfl <;> exact hret.2.2
          · rcases hor with rfl | rfl <;> rw [← hret.2.1] <;> exact hp
      · intro innings
        simp [Detailed.simulateGameLoop, hret]

/-- C20, at a concrete input: the two lineups of `initializeBattingOrder`, entered at
position 4 with draws all equal to 0: seven plate appearances lead to position
`(4 + 7) mod 9 = 2`, and `simulateInning` does not read out of bounds. -/
theorem lineup_cursor_advances_modulo_nine_witness :
    (Simple.initializeBattingOrder.players.size = 9 ∧
      Detailed.initializeBattingOrder.players.size = 9 ∧ (0 : Int) ≤ 4 ∧ (4 : Int) < 9) ∧
    (∃ s, Simple.plateAppearances Simple.initializeBattingOrder 7
        (Simple.inningStart 0 4 (drawsConst 0)) = .ok s ∧ s.battingPosition = 2) ∧
    (∃ s, Detailed.plateAppearances Detailed.initializeBattingOrder 7
        (Detailed.inningStart 0 4 (drawsConst 0)) = .ok s ∧ s.battingPosition = 2) ∧
    Simple.simulateInning 3 Simple.initializeBattingOrder 0 4 (drawsConst 0)
      ≠ .error .badIndex ∧
    Detailed.simulateInning 3 Detailed.initializeBattingOrder 0 4 (drawsConst 0)
      ≠ .error .badIndex := by
  have h := lineup_cursor_advances_modulo_nine Simple.initializeBattingOrder
    Detailed.initializeBattingOrder rfl rfl 3 0 4 (drawsConst 0) (by decide) (by decide)
  refine ⟨⟨rfl, rfl, by decide, by decide⟩, ?_, ?_, h.1.2.1, h.2.2.1⟩
  · obtain ⟨s, _, hs, hp, _⟩ := h.1.1 7
    exact ⟨s, hs, by rw [hp]; decide⟩
  · obtain ⟨s, _, hs, hp, _⟩ := h.2.1 7
    exact ⟨s, hs, by rw [hp]; decide⟩

/-! ## The two models compared, and the conservation of runners -/

/-- C21: the simple model is the detailed model under the "always take the nearer base"
policy: for every outcome and base state, if every resolver draw of the play is below
the runner's rate for the nearer base, the detailed `updateStatus` and the simple
`updateStatus` (run on the occupancy pattern) produce the same occupancy of first,
second and third, the same increase in `runs` and the same increase in `outs`. -/
theorem simple_model_is_detailed_with_nearer_base (result : plateAppearanceResult)
    (bases : Detailed.Bases) (hitter : Detailed.player) (g : RandomSource)
    (runsD outsD runsS outsS : Int)
    (hnear : Detailed.nearerBaseDraws result bases g) :
    Detailed.occupancy (Detailed.updateStatus result bases runsD outsD hitter g).1
      = (Simple.updateStatus result (Detailed.occupancy bases) runsS outsS).1 ∧
    (Detailed.updateStatus result bases runsD outsD hitter g).2.1 - runsD
      = (Simple.updateStatus result (Detailed.occupancy bases) runsS outsS).2.1 - runsS ∧
    (Detailed.updateStatus result bases runsD outsD hitter g).2.2.1 - outsD
      = (Simple.updateStatus result (Detailed.occupancy bases) runsS outsS).2.2 - outsS := by
  cases result
  case SINGLE =>
    obtain ⟨hB, hA⟩ := hnear
    rcases bases with ⟨_ | A, _ | B, _ | C⟩
    all_goals first
      | have hb := hB _ rfl
      | skip
    all_goals first
      | have ha := hA _ rfl
      | skip
    all_goals
      simp_all [Detailed.updateStatus, Detailed.implementHit, Detailed.implementSingle,
        Detailed.simulateBaserunning, randomReal, Detailed.occupancy, Simple.updateStatus,
        Simple.implementHit, Simple.moveBaserunner, Simple.getNumBases]
  case DOUBLE =>
    rcases bases with ⟨_ | A, _ | B, _ | C⟩
    all_goals first
      | have ha := hnear _ rfl
      | skip
    all_goals
      simp_all [Detailed.updateStatus, Detailed.implementHit, Detailed.implementDouble,
        Detailed.simulateBaserunning, randomReal, Detailed.occupancy, Simple.updateStatus,
        Simple.implementHit, Simple.moveBaserunner, Simple.getNumBases] <;> omega
  all_goals
    rcases bases with ⟨_ | A, _ | B, _ | C⟩ <;>
      simp [Detailed.updateStatus, Detailed.implementHit, Detailed.implementWalk,
        Detailed.countBaserunners, Detailed.clearBases, Detailed.occupancy,
        Simple.updateStatus, Simple.implementWalk, Simple.implementHit,
        Simple.moveBaserunner, Simple.getNumBases] <;> omega

/-- C21, at a concrete input: a SINGLE with runners A on first and B on second and draws
of 0.3, below the rate of B for third (0.3664) and below the rate of A for second
(0.7060): both models leave the three bases occupied. -/
theorem simple_model_is_detailed_with_nearer_base_witness :
    Detailed.nearerBaseDraws .SINGLE ⟨some Detailed.runnerA, some Detailed.runnerB, none⟩
        (drawsConst (3 / 10)) ∧
    Detailed.occupancy (Detailed.updateStatus .SINGLE
        ⟨some Detailed.runnerA, some Detailed.runnerB, none⟩ 0 0 Detailed.nextPlayer
        (drawsConst (3 / 10))).1
      = ⟨true, true, true⟩ ∧
    (Simple.updateStatus .SINGLE ⟨true, true, false⟩ 0 0).1 = ⟨true, true, true⟩ := by
  have hnear : Detailed.nearerBaseDraws .SINGLE
      ⟨some Detailed.runnerA, some Detailed.runnerB, none⟩ (drawsConst (3 / 10)) := by
    constructor
    · intro B hB
      cases hB
      simp [Detailed.runnerB, Detailed.nextPlayer, drawsConst]
      norm_num
    · intro A hA
      cases hA
      simp [Detailed.runnerA, Detailed.nextPlayer, drawsConst]
      norm_num
  have h := (simple_model_is_detailed_with_nearer_base .SINGLE
    ⟨some Detailed.runnerA, some Detailed.runnerB, none⟩ Detailed.nextPlayer
    (drawsConst (3 / 10)) 0 0 0 0 hnear).1
  have hs : (Simple.updateStatus .SINGLE ⟨true, true, false⟩ 0 0).1 = ⟨true, true, true⟩ := by
    decide
  exact ⟨hnear, h.trans hs, hs⟩

/-- C22: runner conservation in the simple model: for every base state and outcome,
the number of occupied bases after `updateStatus` plus the runs it added equals the
number of occupied bases before plus 1 for WALK, SINGLE, DOUBLE, TRIPLE and HOME_RUN
(the batter), so no runner is lost and no two runners land on the same base; and plus 0
for OUT_IN_PLAY and STRIKOUT, for which the bases and `runs` are unchanged. -/
theorem simple_runner_conservation (result : plateAppearanceResult) (bases : Simple.Bases)
    (runs outs : Int) :
    Simple.numOccupied (Simple.updateStatus result bases runs outs).1
        + ((Simple.updateStatus result bases runs outs).2.1 - runs)
      = Simple.numOccupied bases
        + (if result = .OUT_IN_PLAY ∨ result = .STRIKOUT then 0 else 1) ∧
    Simple.numOccupied (Simple.updateStatus .OUT_IN_PLAY bases runs outs).1
      = Simple.numOccupied bases ∧
    (Simple.updateStatus .OUT_IN_PLAY bases runs outs).2.1 = runs ∧
    Simple.numOccupied (Simple.updateStatus .STRIKOUT bases runs outs).1
      = Simple.numOccupied bases ∧
    (Simple.updateStatus .STRIKOUT bases runs outs).2.1 = runs := by
  refine ⟨?_, rfl, rfl, rfl, rfl⟩
  rcases bases with ⟨_ | _, _ | _, _ | _⟩ <;> cases result <;>
    simp [Simple.updateStatus, Simple.implementWalk, Simple.implementHit,
      Simple.moveBaserunner, Simple.getNumBases, Simple.numOccupied] <;> omega
